import Mathlib

/-!
Verification development for the web3-signals-mcp signal pipeline.

The definitions below are a shallow embedding of the Python sources:
  * `src/signal_fusion/engine.py`  (the `SignalFusion` class),
  * `src/shared/base_agent.py`     (`BaseAgent.execute`),
  * `src/shared/storage.py`        (the `Storage` dual-backend store),
  * `src/api/server.py`            (`_evaluate_old_snapshots`,
    `_record_performance_snapshot`, `get_reputation`).

Python floats are modelled as exact rationals (`ℚ`); Python's `round`
(banker's rounding, round-half-to-even) is `pyRound` / `pyRoundTo`.
Python dictionaries are modelled as association lists, and fallible calls
as `Except String _` where an uncaught Python exception corresponds to
`.error`.
-/

namespace Web3Signals

set_option maxRecDepth 8000

/-- Round-half-to-even to an integer, the semantics of Python's built-in
`round(x)` (idealised from binary floats to exact rationals). -/
def pyRound (q : ℚ) : ℤ :=
  if q - (⌊q⌋ : ℚ) < 1/2 then ⌊q⌋
  else if q - (⌊q⌋ : ℚ) > 1/2 then ⌊q⌋ + 1
  else if ⌊q⌋ % 2 = 0 then ⌊q⌋ else ⌊q⌋ + 1

/-- Python's `round(x, n)` for `n` decimal digits: scale, round half to
even, unscale. -/
def pyRoundTo (n : ℕ) (q : ℚ) : ℚ :=
  (pyRound (q * (10 : ℚ) ^ n) : ℚ) / (10 : ℚ) ^ n

/-- Substring test, modelling Python's `needle in haystack` for the
non-empty constant needles used by the fusion engine. -/
def strContains (hay needle : String) : Bool :=
  (hay.splitOn needle).length != 1

/-- Python `dict.get(key, default)` over an association list. -/
def dictGet {α : Type} (l : List (String × α)) (k : String) (d : α) : α :=
  match l.lookup k with
  | some v => v
  | none => d

/-- Python `max(lo, min(hi, x))`, the clamp idiom used by every scorer. -/
def pyClamp (lo hi x : ℚ) : ℚ := max lo (min hi x)

theorem pyRound_ge_floor (q : ℚ) : ⌊q⌋ ≤ pyRound q := by
  unfold pyRound
  split
  · exact le_refl _
  · split
    · omega
    · split <;> omega

theorem pyRound_le_floor_add_one (q : ℚ) : pyRound q ≤ ⌊q⌋ + 1 := by
  unfold pyRound
  split
  · omega
  · split
    · omega
    · split <;> omega

theorem pyRound_intCast (k : ℤ) : pyRound (k : ℚ) = k := by
  unfold pyRound
  have hf : ⌊(k : ℚ)⌋ = k := Int.floor_intCast k
  simp only [hf]
  norm_num

theorem pyRound_mono {q r : ℚ} (h : q ≤ r) : pyRound q ≤ pyRound r := by
  rcases lt_or_eq_of_le (Int.floor_le_floor h) with hf | hf
  · calc pyRound q ≤ ⌊q⌋ + 1 := pyRound_le_floor_add_one q
      _ ≤ ⌊r⌋ := by omega
      _ ≤ pyRound r := pyRound_ge_floor r
  · unfold pyRound
    rw [hf]
    split
    · split
      · exact le_refl _
      · split
        · omega
        · split <;> omega
    · rename_i h1
      push_neg at h1
      split
      · rename_i h2
        have h3 : ¬ (r - (⌊r⌋ : ℚ) < 1/2) := by push_neg; linarith
        have h4 : r - (⌊r⌋ : ℚ) > 1/2 := by linarith
        rw [if_neg h3, if_pos h4]
      · rename_i h2
        push_neg at h2
        have h3 : ¬ (r - (⌊r⌋ : ℚ) < 1/2) := by push_neg; linarith
        rw [if_neg h3]
        repeat' split
        all_goals omega

theorem pyRound_sub_le (q : ℚ) : |(pyRound q : ℚ) - q| ≤ 1/2 := by
  have hlo : (⌊q⌋ : ℚ) ≤ q := Int.floor_le q
  have hhi : q < (⌊q⌋ : ℚ) + 1 := Int.lt_floor_add_one q
  rw [abs_le]
  unfold pyRound
  split
  · rename_i h1
    constructor <;> linarith
  · rename_i h1
    push_neg at h1
    split
    · rename_i h2
      push_cast
      constructor <;> linarith
    · rename_i h2
      push_neg at h2
      split
      · constructor <;> linarith
      · push_cast
        constructor <;> linarith

theorem pyRoundTo_mono {n : ℕ} {q r : ℚ} (h : q ≤ r) : pyRoundTo n q ≤ pyRoundTo n r := by
  have hp : (0:ℚ) < (10:ℚ) ^ n := by positivity
  unfold pyRoundTo
  have h1 : q * (10:ℚ) ^ n ≤ r * (10:ℚ) ^ n :=
    mul_le_mul_of_nonneg_right h (le_of_lt hp)
  have h2 : pyRound (q * (10:ℚ) ^ n) ≤ pyRound (r * (10:ℚ) ^ n) := pyRound_mono h1
  exact div_le_div_of_nonneg_right (by exact_mod_cast h2) hp.le

theorem pyRoundTo_intCast (n : ℕ) (k : ℤ) : pyRoundTo n (k : ℚ) = k := by
  unfold pyRoundTo
  have h1 : (k : ℚ) * (10:ℚ) ^ n = ((k * 10 ^ n : ℤ) : ℚ) := by push_cast; ring
  rw [h1, pyRound_intCast]
  have hp : ((10:ℚ) ^ n) ≠ 0 := by positivity
  push_cast
  field_simp

theorem pyRoundTo_of_scaled_int (n : ℕ) (k : ℤ) :
    pyRoundTo n ((k : ℚ) / (10:ℚ) ^ n) = (k : ℚ) / (10:ℚ) ^ n := by
  have hp : ((10:ℚ) ^ n) ≠ 0 := by positivity
  unfold pyRoundTo
  rw [div_mul_cancel₀ _ hp, pyRound_intCast]

theorem pyRoundTo_mem_Icc {n : ℕ} {q : ℚ} (h0 : 0 ≤ q) (h1 : q ≤ 100) :
    0 ≤ pyRoundTo n q ∧ pyRoundTo n q ≤ 100 := by
  constructor
  · have := pyRoundTo_mono (n := n) h0
    rwa [show ((0:ℚ) = ((0:ℤ) : ℚ)) by norm_num, pyRoundTo_intCast] at this
  · have := pyRoundTo_mono (n := n) h1
    rwa [show ((100:ℚ) = ((100:ℤ) : ℚ)) by norm_num, pyRoundTo_intCast] at this

theorem pyRoundTo_sub_le (n : ℕ) (q : ℚ) :
    |pyRoundTo n q - q| ≤ 1 / (2 * (10:ℚ) ^ n) := by
  have hp : (0:ℚ) < (10:ℚ) ^ n := by positivity
  have h := pyRound_sub_le (q * (10:ℚ) ^ n)
  unfold pyRoundTo
  have heq : (pyRound (q * (10:ℚ) ^ n) : ℚ) / (10:ℚ) ^ n - q
      = ((pyRound (q * (10:ℚ) ^ n) : ℚ) - q * (10:ℚ) ^ n) / (10:ℚ) ^ n := by
    field_simp
    ring
  rw [heq, abs_div, abs_of_pos hp, div_le_div_iff₀ hp (by positivity)]
  calc |(pyRound (q * (10:ℚ) ^ n) : ℚ) - q * (10:ℚ) ^ n| * (2 * (10:ℚ) ^ n)
      ≤ (1/2) * (2 * (10:ℚ) ^ n) := by
        apply mul_le_mul_of_nonneg_right h (by positivity)
    _ = 1 * (10:ℚ) ^ n := by ring

theorem pyClamp_mem_Icc {lo hi x : ℚ} (h0 : 0 ≤ lo) (h1 : lo ≤ 100)
    (_h2 : 0 ≤ hi) (h3 : hi ≤ 100) : 0 ≤ pyClamp lo hi x ∧ pyClamp lo hi x ≤ 100 := by
  unfold pyClamp
  constructor
  · exact le_trans h0 (le_max_left _ _)
  · exact max_le h1 (le_trans (min_le_left _ _) h3)

theorem pyClamp_mono {lo hi x y : ℚ} (h : x ≤ y) : pyClamp lo hi x ≤ pyClamp lo hi y := by
  unfold pyClamp
  exact max_le_max (le_refl _) (min_le_min (le_refl _) h)

theorem pyClamp_eq_self {lo hi x : ℚ} (h0 : lo ≤ x) (h1 : x ≤ hi) : pyClamp lo hi x = x := by
  unfold pyClamp
  rw [min_eq_right h1, max_eq_right h0]

/-- Fixed-point decimal rendering, modelling Python's `format(x, ".Nf")`
(which also rounds half to even). Only used to build detail strings. -/
def fmtFixed (nd : ℕ) (q : ℚ) : String :=
  let scaled : ℤ := pyRound (q * (10:ℚ) ^ nd)
  let sign := if scaled < 0 then "-" else ""
  let a : ℕ := scaled.natAbs
  if nd = 0 then sign ++ toString a
  else
    let d : ℕ := 10 ^ nd
    let fracStr := toString (a % d)
    let pad := String.mk (List.replicate (nd - fracStr.length) '0')
    sign ++ toString (a / d) ++ "." ++ pad ++ fracStr

/-! ## Fusion engine: `src/signal_fusion/engine.py`

The five scoring dimensions. `fuse` iterates `all_roles` in the fixed
order whale, technical, derivatives, narrative, market. -/

inductive Role where
  | whale | technical | derivatives | narrative | market
deriving DecidableEq, Repr, Fintype

def allRoles : List Role := [.whale, .technical, .derivatives, .narrative, .market]

def nonWhaleRoles : List Role := [.technical, .derivatives, .narrative, .market]

def Role.name : Role → String
  | .whale => "whale"
  | .technical => "technical"
  | .derivatives => "derivatives"
  | .narrative => "narrative"
  | .market => "market"

/-! ### Whale scorer (`SignalFusion._score_whale`) -/

/-- One entry of the whale agent's per-asset move list. The scorer only
reads the `action` field. -/
structure WhaleMove where
  action : String
deriving DecidableEq, Repr

/-- The whale agent's `summary` block, with the two fields the scorer
reads (after the `.get` defaults are applied). -/
structure WhaleSummary where
  netExchangeDirection : String := ""
  whaleWalletSignals : List String := []
deriving DecidableEq, Repr

/-- The whale agent's `data` block as consumed by `_score_whale`. -/
structure WhaleData where
  byAsset : List (String × List WhaleMove) := []
  summary : WhaleSummary := {}
deriving DecidableEq, Repr

/-- The `scoring.whale` rule table; field defaults are the `rules.get`
defaults in `_score_whale`. -/
structure WhaleRules where
  baseScore : ℚ := 50
  scoringMode : String := "ratio"
  minDirectionalMoves : ℤ := 2
  ratioMaxPoints : ℚ := 60
  accumulatePoints : ℚ := 10
  sellPoints : ℚ := -10
  exchangeOutflowBonus : ℚ := 10
  exchangeInflowPenalty : ℚ := -10
  whaleWalletAccumulatingBonus : ℚ := 8
  whaleWalletReducingPenalty : ℚ := -8
  minScore : ℚ := 0
  maxScore : ℚ := 100
deriving DecidableEq, Repr

/-- The per-asset move part of `_score_whale` (the ratio / legacy score
plus its detail entries). A `.error` result models an uncaught Python
exception (caught by `_score_dimension`); the only exceptional path is
the `accum_count / directional` division when `directional = 0`
(reachable when `min_directional_moves ≤ 0`). -/
def score_whale_base (rules : WhaleRules) (asset : String) (data : WhaleData) :
    Except String (ℚ × List String) :=
  let assetMoves := dictGet data.byAsset asset []
  let accumCount : ℕ := (assetMoves.filter (fun m => m.action = "accumulate")).length
  let sellCount : ℕ := (assetMoves.filter (fun m => m.action = "sell")).length
  let directional : ℕ := accumCount + sellCount
  if rules.scoringMode = "ratio" ∧ rules.minDirectionalMoves ≤ (directional : ℤ) then
    if directional = 0 then .error "division by zero"
    else
      let ratio : ℚ := (accumCount : ℚ) / (directional : ℚ)
      .ok (ratio * rules.ratioMaxPoints,
           [toString accumCount ++ " accumulate, " ++ toString sellCount ++
            " sell (ratio " ++ fmtFixed 0 (ratio * 100) ++ "%)"])
  else if 0 < directional then
    .ok (rules.baseScore + (accumCount : ℚ) * rules.accumulatePoints
           + (sellCount : ℚ) * rules.sellPoints,
         [toString accumCount ++ " accumulate, " ++ toString sellCount ++ " sell"])
  else
    .ok (rules.baseScore, [])

/-- `SignalFusion._score_whale`: per-asset moves, then exchange-flow
bonus, then whale-wallet signals, then the clamp to
`[min_score, max_score]`. -/
def score_whale (rules : WhaleRules) (asset : String) (data : WhaleData) :
    Except String (ℚ × String) :=
  match score_whale_base rules asset data with
  | .error e => .error e
  | .ok (s0, ds0) =>
    let step1 : ℚ × List String :=
      if data.summary.netExchangeDirection = "net_outflow" then
        (s0 + rules.exchangeOutflowBonus, ds0 ++ ["exchange outflow"])
      else if data.summary.netExchangeDirection = "net_inflow" then
        (s0 + rules.exchangeInflowPenalty, ds0 ++ ["exchange inflow"])
      else (s0, ds0)
    let s2 : ℚ := data.summary.whaleWalletSignals.foldl (fun s ws =>
      if strContains ws.toLower "accumulating" then s + rules.whaleWalletAccumulatingBonus
      else if strContains ws.toLower "reducing" then s + rules.whaleWalletReducingPenalty
      else s) step1.1
    let score := pyClamp rules.minScore rules.maxScore s2
    .ok (score, if step1.2.isEmpty then "no whale activity"
                else String.intercalate "; " step1.2)

theorem score_whale_mem_Icc {rules : WhaleRules} {asset : String} {data : WhaleData}
    {s : ℚ} {d : String} (h : score_whale rules asset data = .ok (s, d))
    (hmin0 : 0 ≤ rules.minScore) (hmin1 : rules.minScore ≤ 100)
    (hmax0 : 0 ≤ rules.maxScore) (hmax1 : rules.maxScore ≤ 100) :
    0 ≤ s ∧ s ≤ 100 := by
  unfold score_whale at h
  cases hb : score_whale_base rules asset data with
  | error e => rw [hb] at h; exact absurd h (by simp)
  | ok p =>
    obtain ⟨s0, ds0⟩ := p
    rw [hb] at h
    simp only [Except.ok.injEq, Prod.mk.injEq] at h
    obtain ⟨hs, -⟩ := h
    rw [← hs]
    exact pyClamp_mem_Icc hmin0 hmin1 hmax0 hmax1

theorem min_max_mem_Icc (x : ℚ) : 0 ≤ min 100 (max 0 x) ∧ min 100 (max 0 x) ≤ 100 := by
  constructor
  · exact le_min (by norm_num) (le_max_left _ _)
  · exact min_le_left _ _

/-! ### Technical scorer (`SignalFusion._score_technical`) -/

/-- The `scoring.technical.rsi` rule table (defaults = `rules.get` defaults). -/
structure RsiRules where
  oversoldBelow : ℚ := 30
  overboughtAbove : ℚ := 70
  oversoldScore : ℚ := 30
  overboughtScore : ℚ := 10
  neutralMinScore : ℚ := 15
  neutralMaxScore : ℚ := 40
deriving DecidableEq, Repr

structure MacdRules where
  bullishCrossPoints : ℚ := 20
  bearishCrossPoints : ℚ := 0
deriving DecidableEq, Repr

structure MaRules where
  aboveMa7Points : ℚ := 10
  belowMa7Points : ℚ := 0
  aboveMa30Points : ℚ := 10
  belowMa30Points : ℚ := 0
deriving DecidableEq, Repr

structure TrendRules where
  bullishPoints : ℚ := 20
  bearishPoints : ℚ := 0
  neutralPoints : ℚ := 10
deriving DecidableEq, Repr

structure TechRules where
  rsi : RsiRules := {}
  macd : MacdRules := {}
  ma : MaRules := {}
  trend : TrendRules := {}
deriving DecidableEq, Repr

/-- One `by_asset` entry of the technical agent, restricted to the fields
`_score_technical` reads. `none` models a missing / null JSON field and
`""` the missing trend strings. -/
structure TechAssetData where
  rsi14 : Option ℚ := none
  macdLine : Option ℚ := none
  macdSignal : Option ℚ := none
  price : Option ℚ := none
  ma7d : Option ℚ := none
  ma30d : Option ℚ := none
  trend30d : String := ""
  trend7d : String := ""
deriving DecidableEq, Repr

structure TechData where
  byAsset : List (String × TechAssetData) := []
deriving DecidableEq, Repr

/-- The RSI component of `_score_technical`. The linear interpolation
divides by `overbought_above - oversold_below`; when the two thresholds
coincide that division raises `ZeroDivisionError`, modelled as `.error`. -/
def rsiComponent (r : RsiRules) (rsi14 : Option ℚ) : Except String (ℚ × List String) :=
  match rsi14 with
  | none => .ok (0, [])
  | some rsi =>
    if rsi < r.oversoldBelow then
      .ok (r.oversoldScore, ["RSI " ++ fmtFixed 0 rsi ++ " oversold"])
    else if rsi > r.overboughtAbove then
      .ok (r.overboughtScore, ["RSI " ++ fmtFixed 0 rsi ++ " overbought"])
    else if r.overboughtAbove - r.oversoldBelow = 0 then .error "division by zero"
    else
      let ratio := (rsi - r.oversoldBelow) / (r.overboughtAbove - r.oversoldBelow)
      .ok (r.neutralMinScore + ratio * (r.neutralMaxScore - r.neutralMinScore),
           ["RSI " ++ fmtFixed 0 rsi])

/-- `SignalFusion._score_technical`. -/
def score_technical (rules : TechRules) (asset : String) (data : TechData) :
    Except String (ℚ × String) :=
  match data.byAsset.lookup asset with
  | none => .ok (50, "no data")
  | some ad =>
    match rsiComponent rules.rsi ad.rsi14 with
    | .error e => .error e
    | .ok (rsiPts, rsiDetails) =>
      let macdPart : ℚ × List String :=
        match ad.macdLine, ad.macdSignal with
        | some v, some sig =>
          if v > sig then (rules.macd.bullishCrossPoints, ["MACD bullish"])
          else (rules.macd.bearishCrossPoints, ["MACD bearish"])
        | _, _ => (0, [])
      let ma7Pts : ℚ :=
        match ad.price, ad.ma7d with
        | some p, some m => if p > m then rules.ma.aboveMa7Points else rules.ma.belowMa7Points
        | _, _ => 0
      let ma30Part : ℚ × List String :=
        match ad.price, ad.ma30d with
        | some p, some m =>
          if p > m then (rules.ma.aboveMa30Points, ["above MA30"])
          else (rules.ma.belowMa30Points, [])
        | _, _ => (0, [])
      let trend := if ad.trend30d ≠ "" then ad.trend30d else ad.trend7d
      let trendPart : ℚ × List String :=
        if trend = "bullish" then (rules.trend.bullishPoints, ["trend bullish"])
        else if trend = "bearish" then (rules.trend.bearishPoints, ["trend bearish"])
        else (rules.trend.neutralPoints, [])
      let score := rsiPts + macdPart.1 + ma7Pts + ma30Part.1 + trendPart.1
      let details := rsiDetails ++ macdPart.2 ++ ma30Part.2 ++ trendPart.2
      .ok (min 100 (max 0 score),
           if details.isEmpty then "no tech data" else String.intercalate "; " details)

theorem score_technical_mem_Icc {rules : TechRules} {asset : String} {data : TechData}
    {s : ℚ} {d : String} (h : score_technical rules asset data = .ok (s, d)) :
    0 ≤ s ∧ s ≤ 100 := by
  unfold score_technical at h
  cases hl : data.byAsset.lookup asset with
  | none =>
    rw [hl] at h
    simp only [Except.ok.injEq, Prod.mk.injEq] at h
    obtain ⟨hs, -⟩ := h
    rw [← hs]; norm_num
  | some ad =>
    rw [hl] at h
    dsimp only at h
    cases hr : rsiComponent rules.rsi ad.rsi14 with
    | error e => rw [hr] at h; exact absurd h (by simp)
    | ok p =>
      obtain ⟨rsiPts, rsiDetails⟩ := p
      rw [hr] at h
      simp only [Except.ok.injEq, Prod.mk.injEq] at h
      obtain ⟨hs, -⟩ := h
      rw [← hs]
      exact min_max_mem_Icc _

/-! ### Derivatives scorer (`SignalFusion._score_derivatives`) -/

structure LongShortRules where
  sweetSpotMin : ℚ := 0.55
  sweetSpotMax : ℚ := 0.65
  overcrowdedAbove : ℚ := 0.70
  contrarianBelow : ℚ := 0.45
  sweetSpotScore : ℚ := 40
  overcrowdedScore : ℚ := 10
  contrarianScore : ℚ := 35
  defaultScore : ℚ := 25
deriving DecidableEq, Repr

structure FundingRules where
  negativeScore : ℚ := 35
  lowThreshold : ℚ := 0.0002
  lowScore : ℚ := 30
  moderateThreshold : ℚ := 0.0005
  moderateScore : ℚ := 15
  highScore : ℚ := 5
deriving DecidableEq, Repr

structure OpenInterestRules where
  changeThresholdPct : ℚ := 5
  risingScore : ℚ := 25
  fallingScore : ℚ := 10
  stableScore : ℚ := 15
deriving DecidableEq, Repr

structure DerivRules where
  longShort : LongShortRules := {}
  funding : FundingRules := {}
  openInterest : OpenInterestRules := {}
deriving DecidableEq, Repr

structure DerivAssetData where
  longShortRatio : Option ℚ := none
  fundingRate : Option ℚ := none
  openInterestUsd : Option ℚ := none
  openInterest : Option ℚ := none
deriving DecidableEq, Repr

structure DerivData where
  byAsset : List (String × DerivAssetData) := []
deriving DecidableEq, Repr

/-- Python's `a or b` over optional floats: `a` wins iff it is truthy
(present and non-zero), mirroring
`asset_data.get("open_interest_usd") or asset_data.get("open_interest")`. -/
def pyOrOpt (a b : Option ℚ) : Option ℚ :=
  match a with
  | some x => if x ≠ 0 then some x else b
  | none => b

/-- `SignalFusion._score_derivatives`. The open-interest component reads
the previous value from the `oi_prev` kv namespace, passed here as
`prevOi` (the scorer's `save_kv` of the current value only affects the
next cycle; see `derivSavedOi`). -/
def score_derivatives (rules : DerivRules) (asset : String) (data : DerivData)
    (prevOi : Option ℚ) : ℚ × String :=
  match data.byAsset.lookup asset with
  | none => (50, "no data")
  | some ad =>
    let lsPart : ℚ × List String :=
      match ad.longShortRatio with
      | none => (0, [])
      | some ls =>
        if rules.longShort.sweetSpotMin ≤ ls ∧ ls ≤ rules.longShort.sweetSpotMax then
          (rules.longShort.sweetSpotScore, ["L/S " ++ fmtFixed 2 ls ++ " sweet spot"])
        else if ls > rules.longShort.overcrowdedAbove then
          (rules.longShort.overcrowdedScore, ["L/S " ++ fmtFixed 2 ls ++ " overcrowded"])
        else if ls < rules.longShort.contrarianBelow then
          (rules.longShort.contrarianScore, ["L/S " ++ fmtFixed 2 ls ++ " contrarian"])
        else
          (rules.longShort.defaultScore, ["L/S " ++ fmtFixed 2 ls])
    let fundPart : ℚ × List String :=
      match ad.fundingRate with
      | none => (0, [])
      | some f =>
        if f < 0 then (rules.funding.negativeScore,
                       ["funding " ++ fmtFixed 5 f ++ " negative"])
        else if f < rules.funding.lowThreshold then (rules.funding.lowScore, ["low funding"])
        else if f < rules.funding.moderateThreshold then (rules.funding.moderateScore, [])
        else (rules.funding.highScore, ["high funding"])
    let oiPart : ℚ × List String :=
      match pyOrOpt ad.openInterestUsd ad.openInterest with
      | none => (0, [])
      | some oi =>
        match prevOi with
        | some p =>
          if p > 0 then
            let chg := (oi - p) / p * 100
            if chg > rules.openInterest.changeThresholdPct then
              (rules.openInterest.risingScore, ["OI +" ++ fmtFixed 1 chg ++ "%"])
            else if chg < -rules.openInterest.changeThresholdPct then
              (rules.openInterest.fallingScore, ["OI " ++ fmtFixed 1 chg ++ "%"])
            else (rules.openInterest.stableScore, [])
          else (rules.openInterest.stableScore, [])
        | none => (rules.openInterest.stableScore, [])
    let score := lsPart.1 + fundPart.1 + oiPart.1
    let details := lsPart.2 ++ fundPart.2 ++ oiPart.2
    (min 100 (max 0 score),
     if details.isEmpty then "no deriv data" else String.intercalate "; " details)

/-- The value `_score_derivatives` writes to the `oi_prev` kv namespace
for the next cycle (`save_kv("oi_prev", asset, float(oi))`), when the
asset has an open-interest figure. -/
def derivSavedOi (asset : String) (data : DerivData) : Option ℚ :=
  match data.byAsset.lookup asset with
  | none => none
  | some ad => pyOrOpt ad.openInterestUsd ad.openInterest

theorem score_derivatives_mem_Icc (rules : DerivRules) (asset : String)
    (data : DerivData) (prevOi : Option ℚ) :
    0 ≤ (score_derivatives rules asset data prevOi).1 ∧
      (score_derivatives rules asset data prevOi).1 ≤ 100 := by
  unfold score_derivatives
  cases data.byAsset.lookup asset with
  | none => norm_num
  | some ad => exact min_max_mem_Icc _

/-! ### Narrative scorer (`SignalFusion._score_narrative`) -/

structure NarrRules where
  volumeMultiplier : ℚ := 30
  llmMaxPoints : ℚ := 25
  llmMinConfidence : ℚ := 0.3
  communityMaxPoints : ℚ := 15
  trendingBonus : ℚ := 10
  influencerThreshold : ℤ := 2
  influencerBonus : ℚ := 10
  multiSourceThreshold : ℤ := 3
  multiSourceBonus : ℚ := 10
  maxScore : ℚ := 100
deriving DecidableEq, Repr

/-- The cached LLM sentiment block; `none` at the use site models both an
absent key and a falsy / non-dict value
(`if llm_data and isinstance(llm_data, dict)`). -/
structure LlmSentiment where
  sentiment : ℚ := 0
  confidence : ℚ := 0
  tone : String := "neutral"
  dominantNarrative : String := ""
deriving DecidableEq, Repr

structure CommunitySentiment where
  score : Option ℚ := none
  bullish : ℤ := 0
  bearish : ℤ := 0
deriving DecidableEq, Repr

structure NarrAssetData where
  normalisedScore : ℚ := 0
  totalMentions : ℤ := 0
  llmSentiment : Option LlmSentiment := none
  communitySentiment : Option CommunitySentiment := none
  trendingCoingecko : Bool := false
  influencerMentions : ℤ := 0
  topInfluencersActive : List String := []
  sourcesWithData : ℤ := 0
deriving DecidableEq, Repr

structure NarrData where
  byAsset : List (String × NarrAssetData) := []
deriving DecidableEq, Repr

/-- `SignalFusion._score_narrative`: six additive components followed by
the clamp `min(max_score, max(0.0, score))`. -/
def score_narrative (rules : NarrRules) (asset : String) (data : NarrData) :
    ℚ × String :=
  match data.byAsset.lookup asset with
  | none => (50, "no data")
  | some ad =>
    let volPart : ℚ × List String :=
      (ad.normalisedScore * rules.volumeMultiplier,
       if ad.normalisedScore > 0 then
         ["vol " ++ fmtFixed 2 ad.normalisedScore ++
          " (" ++ toString ad.totalMentions ++ " mentions)"]
       else [])
    let llmPart : ℚ × List String :=
      match ad.llmSentiment with
      | none => (0, [])
      | some llm =>
        if llm.confidence ≥ rules.llmMinConfidence then
          ((llm.sentiment + 1) / 2 * rules.llmMaxPoints,
           ["LLM " ++ llm.tone] ++
             (if llm.dominantNarrative ≠ "" then [llm.dominantNarrative] else []))
        else (0, [])
    let communityPart : ℚ × List String :=
      match ad.communitySentiment with
      | none => (0, [])
      | some cs =>
        match cs.score with
        | none => (0, [])
        | some v =>
          ((v + 1) / 2 * rules.communityMaxPoints,
           ["community " ++ toString cs.bullish ++ "B/" ++ toString cs.bearish ++ "S"])
    let trendPart : ℚ × List String :=
      if ad.trendingCoingecko then (rules.trendingBonus, ["trending"]) else (0, [])
    let infPart : ℚ × List String :=
      if ad.influencerMentions ≥ rules.influencerThreshold then
        (rules.influencerBonus,
         if ad.topInfluencersActive.isEmpty then
           [toString ad.influencerMentions ++ " influencers"]
         else
           [toString ad.influencerMentions ++ " influencers (" ++
            String.intercalate ", " (ad.topInfluencersActive.take 2) ++ ")"])
      else (0, [])
    let multiPart : ℚ × List String :=
      if ad.sourcesWithData ≥ rules.multiSourceThreshold then
        (rules.multiSourceBonus, [toString ad.sourcesWithData ++ " sources"])
      else (0, [])
    let score := volPart.1 + llmPart.1 + communityPart.1 + trendPart.1
      + infPart.1 + multiPart.1
    let details := volPart.2 ++ llmPart.2 ++ communityPart.2 ++ trendPart.2
      ++ infPart.2 ++ multiPart.2
    (min rules.maxScore (max 0 score),
     if details.isEmpty then "low buzz" else String.intercalate "; " details)

theorem score_narrative_mem_Icc (rules : NarrRules) (asset : String) (data : NarrData)
    (hmax0 : 0 ≤ rules.maxScore) (hmax1 : rules.maxScore ≤ 100) :
    0 ≤ (score_narrative rules asset data).1 ∧
      (score_narrative rules asset data).1 ≤ 100 := by
  unfold score_narrative
  cases data.byAsset.lookup asset with
  | none => norm_num
  | some ad =>
    constructor
    · exact le_min hmax0 (le_max_left _ _)
    · exact le_trans (min_le_left _ _) hmax1

/-! ### Market scorer (`SignalFusion._score_market`) -/

structure PriceChangeRules where
  strongPositiveAbove : ℚ := 5
  positiveAbove : ℚ := 0
  mildNegativeAbove : ℚ := -5
  strongPositiveScore : ℚ := 40
  positiveScore : ℚ := 30
  mildNegativeScore : ℚ := 20
  strongNegativeScore : ℚ := 10
deriving DecidableEq, Repr

structure VolumeRules where
  spikeMultiplierAbove : ℚ := 2
  elevatedMultiplierAbove : ℚ := 1.5
  spikeScore : ℚ := 30
  elevatedScore : ℚ := 20
  normalScore : ℚ := 10
deriving DecidableEq, Repr

structure FearGreedRules where
  extremeFearBelow : ℚ := 25
  fearBelow : ℚ := 45
  neutralBelow : ℚ := 55
  greedBelow : ℚ := 75
  extremeFearScore : ℚ := 30
  fearScore : ℚ := 25
  neutralScore : ℚ := 15
  greedScore : ℚ := 10
  extremeGreedScore : ℚ := 5
deriving DecidableEq, Repr

structure MarketRules where
  priceChange : PriceChangeRules := {}
  volume : VolumeRules := {}
  fearGreed : FearGreedRules := {}
deriving DecidableEq, Repr

structure MarketAssetData where
  change24hPct : Option ℚ := none
  volumeSpikeRatio : Option ℚ := none
deriving DecidableEq, Repr

structure MarketSentiment where
  fearGreedIndex : Option ℚ := none
deriving DecidableEq, Repr

structure MarketData where
  perAsset : List (String × MarketAssetData) := []
  sentiment : MarketSentiment := {}
deriving DecidableEq, Repr

/-- `SignalFusion._score_market`. Unlike the other scorers there is no
early return for a missing asset: `per_asset.get(asset, {})` yields an
empty dict, here the all-`none` record. -/
def score_market (rules : MarketRules) (asset : String) (data : MarketData) :
    ℚ × String :=
  let ad := dictGet data.perAsset asset {}
  let pcPart : ℚ × List String :=
    match ad.change24hPct with
    | none => (0, [])
    | some c =>
      if c > rules.priceChange.strongPositiveAbove then
        (rules.priceChange.strongPositiveScore, ["+" ++ fmtFixed 1 c ++ "% strong"])
      else if c > rules.priceChange.positiveAbove then
        (rules.priceChange.positiveScore, ["+" ++ fmtFixed 1 c ++ "%"])
      else if c > rules.priceChange.mildNegativeAbove then
        (rules.priceChange.mildNegativeScore, [fmtFixed 1 c ++ "%"])
      else
        (rules.priceChange.strongNegativeScore, [fmtFixed 1 c ++ "% drop"])
  let volPart : ℚ × List String :=
    match ad.volumeSpikeRatio with
    | none => (0, [])
    | some v =>
      if v > rules.volume.spikeMultiplierAbove then
        (rules.volume.spikeScore, [fmtFixed 1 v ++ "x vol spike"])
      else if v > rules.volume.elevatedMultiplierAbove then
        (rules.volume.elevatedScore, [fmtFixed 1 v ++ "x vol"])
      else (rules.volume.normalScore, [])
  let fgPart : ℚ × List String :=
    match data.sentiment.fearGreedIndex with
    | none => (0, [])
    | some fg =>
      if fg < rules.fearGreed.extremeFearBelow then
        (rules.fearGreed.extremeFearScore, ["F&G " ++ fmtFixed 0 fg ++ " extreme fear"])
      else if fg < rules.fearGreed.fearBelow then
        (rules.fearGreed.fearScore, ["F&G " ++ fmtFixed 0 fg ++ " fear"])
      else if fg < rules.fearGreed.neutralBelow then
        (rules.fearGreed.neutralScore, [])
      else if fg < rules.fearGreed.greedBelow then
        (rules.fearGreed.greedScore, [])
      else
        (rules.fearGreed.extremeGreedScore, ["F&G " ++ fmtFixed 0 fg ++ " extreme greed"])
  let score := pcPart.1 + volPart.1 + fgPart.1
  let details := pcPart.2 ++ volPart.2 ++ fgPart.2
  (min 100 (max 0 score),
   if details.isEmpty then "no market data" else String.intercalate "; " details)

theorem score_market_mem_Icc (rules : MarketRules) (asset : String) (data : MarketData) :
    0 ≤ (score_market rules asset data).1 ∧ (score_market rules asset data).1 ≤ 100 := by
  unfold score_market
  exact min_max_mem_Icc _

/-! ### The fusion pipeline (`SignalFusion.fuse`) -/

structure ScoringCfg where
  whale : WhaleRules := {}
  technical : TechRules := {}
  derivatives : DerivRules := {}
  narrative : NarrRules := {}
  market : MarketRules := {}
deriving DecidableEq, Repr

/-- The `reweighting` profile block. The keyword lists hold the
already-lowercased keywords (the engine lowercases them on load). -/
structure ReweightCfg where
  enabled : Bool := false
  tierMultipliers : List (String × ℚ) := [("full", 1), ("sparse", 0.5), ("none", 0)]
  noDataKeywords : List String := ["no data", "no whale activity", "no scorer"]
  fullDataKeywords : List String := ["accumulate", "sell"]
deriving DecidableEq, Repr

structure ConvictionCfg where
  enabled : Bool := true
  minAgreeingDimensions : ℤ := 3
  boostFactor : ℚ := 1.25
deriving DecidableEq, Repr

structure MomentumCfg where
  threshold : ℚ := 5
  improvingLabel : String := "improving"
  degradingLabel : String := "degrading"
  stableLabel : String := "stable"
deriving DecidableEq, Repr

/-- One entry of the `labels` table; defaults are the `entry.get`
defaults in `_classify`. -/
structure LabelBand where
  minScore : ℚ := 0
  name : String := "UNKNOWN"
  direction : String := "neutral"
deriving DecidableEq, Repr

/-- The slices of the YAML profile that `fuse` reads. `weights` is the
`weights` mapping after `float(weights.get(role, 0.0))`. -/
structure FusionProfile where
  weights : Role → ℚ
  scoring : ScoringCfg := {}
  labels : List LabelBand := []
  reweighting : ReweightCfg := {}
  conviction : ConvictionCfg := {}
  momentum : MomentumCfg := {}

/-- The latest stored envelope data of each collector as seen by `fuse`
(`raw[role]`); `none` models `load_latest` returning null. -/
structure FusionInputs where
  whale : Option WhaleData := none
  technical : Option TechData := none
  derivatives : Option DerivData := none
  narrative : Option NarrData := none
  market : Option MarketData := none
deriving DecidableEq, Repr

/-- `SignalFusion._score_dimension`: dispatch on the role; a missing
envelope yields `(50.0, "no data")` and a scorer exception is caught and
yields `(50.0, "error: ...")`. -/
def scoreDimension (p : FusionProfile) (asset : String) (inp : FusionInputs)
    (prevOi : Option ℚ) : Role → ℚ × String
  | .whale =>
    match inp.whale with
    | none => (50, "no data")
    | some d =>
      match score_whale p.scoring.whale asset d with
      | .ok v => v
      | .error e => (50, "error: " ++ e)
  | .technical =>
    match inp.technical with
    | none => (50, "no data")
    | some d =>
      match score_technical p.scoring.technical asset d with
      | .ok v => v
      | .error e => (50, "error: " ++ e)
  | .derivatives =>
    match inp.derivatives with
    | none => (50, "no data")
    | some d => score_derivatives p.scoring.derivatives asset d prevOi
  | .narrative =>
    match inp.narrative with
    | none => (50, "no data")
    | some d => score_narrative p.scoring.narrative asset d
  | .market =>
    match inp.market with
    | none => (50, "no data")
    | some d => score_market p.scoring.market asset d

/-- Fusion Phase 2: classify the whale data tier from the whale detail
string and the configured keyword lists. -/
def whaleDataTierOf (cfg : ReweightCfg) (whaleDetail : String) : String :=
  let dl := whaleDetail.toLower
  if ¬ cfg.enabled then "full"
  else if cfg.noDataKeywords.any (fun kw => strContains dl kw) ∨ dl.startsWith "error:" then
    "none"
  else if cfg.fullDataKeywords.any (fun kw => strContains dl kw) then "full"
  else "sparse"

def nonWhaleSum (w : Role → ℚ) : ℚ :=
  w .technical + w .derivatives + w .narrative + w .market

/-- Fusion Phase 3: redistribute the freed whale weight to the four
non-whale dimensions in proportion to their configured weights. -/
def adjustedWeights (w : Role → ℚ) (tierMult : ℚ) : Role → ℚ :=
  if tierMult ≥ 1 then w
  else
    let effectiveWhale := w .whale * tierMult
    let freed := w .whale - effectiveWhale
    fun r =>
      if r = .whale then effectiveWhale
      else if nonWhaleSum w > 0 then w r + freed * (w r / nonWhaleSum w)
      else w r

/-- Fusion Phase 4 accumulation `composite += score * adj_w` over
`all_roles`. -/
def compositeRaw (sc w : Role → ℚ) : ℚ :=
  sc .whale * w .whale + sc .technical * w .technical + sc .derivatives * w .derivatives
    + sc .narrative * w .narrative + sc .market * w .market

def bullishCount (sc : Role → ℚ) : ℕ :=
  (allRoles.filter (fun r => sc r > 55)).length

def bearishCount (sc : Role → ℚ) : ℕ :=
  (allRoles.filter (fun r => sc r < 45)).length

/-- Fusion Phase 5, the conviction multiplier: amplify the composite away
from 50 when enough dimensions agree, then clamp to `[0,100]` and round.
Returns the new composite and the `conviction_applied` flag. -/
def convictionStep (cfg : ConvictionCfg) (sc : Role → ℚ) (composite : ℚ) : ℚ × Bool :=
  if cfg.enabled then
    let bull := bullishCount sc
    let bear := bearishCount sc
    let center : ℚ := 50
    let c1 :=
      if cfg.minAgreeingDimensions ≤ (bull : ℤ) ∧ composite > center then
        pyRoundTo 1 (center + (composite - center) * cfg.boostFactor)
      else if cfg.minAgreeingDimensions ≤ (bear : ℤ) ∧ composite < center then
        pyRoundTo 1 (center - (center - composite) * cfg.boostFactor)
      else composite
    let c2 := pyRoundTo 1 (max 0 (min 100 c1))
    (c2, decide (cfg.minAgreeingDimensions ≤ (bull : ℤ)
                  ∨ cfg.minAgreeingDimensions ≤ (bear : ℤ)))
  else (composite, false)

/-- `SignalFusion._classify`: walk the label table, first band with
`score ≥ min_score` wins; fall back to `("STRONG SELL", "sell")`. -/
def classify (score : ℚ) : List LabelBand → String × String
  | [] => ("STRONG SELL", "sell")
  | b :: rest => if score ≥ b.minScore then (b.name, b.direction) else classify score rest

/-- Fusion Step 7: momentum label versus the previous stored composite. -/
def momentumOf (cfg : MomentumCfg) (prev : Option ℚ) (composite : ℚ) : String :=
  match prev with
  | none => "new"
  | some p =>
    let delta := composite - p
    if delta > cfg.threshold then cfg.improvingLabel
    else if delta < -cfg.threshold then cfg.degradingLabel
    else cfg.stableLabel

/-- One entry of the reported `dimensions` map. -/
structure DimensionEntry where
  score : ℚ
  label : String
  detail : String
  weight : ℚ
deriving DecidableEq, Repr

/-- The per-asset record stored in `signals[asset]`. -/
structure AssetSignal where
  compositeScore : ℚ
  label : String
  direction : String
  dimensions : Role → DimensionEntry
  momentum : String
  prevScore : Option ℚ
  whaleDataTier : String
  convictionBoost : Bool

/-- The body of the per-asset loop of `SignalFusion.fuse` (Phases 1-5,
classification and momentum). `prevOi` is the `oi_prev` kv value read by
the derivatives scorer and `prevScore` the `fusion_scores` kv value; the
second component of the result is the composite stored back via
`save_kv("fusion_scores", asset, composite)`. -/
def fuseAsset (p : FusionProfile) (asset : String) (inp : FusionInputs)
    (prevOi prevScore : Option ℚ) : AssetSignal × ℚ :=
  let rawScores := scoreDimension p asset inp prevOi
  let tier := whaleDataTierOf p.reweighting (rawScores .whale).2
  let tierMult := dictGet p.reweighting.tierMultipliers tier 1
  let adjW := adjustedWeights p.weights tierMult
  let dims : Role → DimensionEntry := fun r =>
    { score := pyRoundTo 1 (rawScores r).1
      label := (classify (rawScores r).1 p.labels).1
      detail := (rawScores r).2
      weight := pyRoundTo 3 (adjW r) }
  let composite0 := pyRoundTo 1 (compositeRaw (fun r => (rawScores r).1) adjW)
  let conv := convictionStep p.conviction (fun r => (rawScores r).1) composite0
  let cls := classify conv.1 p.labels
  ({ compositeScore := conv.1
     label := cls.1
     direction := cls.2
     dimensions := dims
     momentum := momentumOf p.momentum prevScore conv.1
     prevScore := prevScore.map (pyRoundTo 1)
     whaleDataTier := tier
     convictionBoost := conv.2 }, conv.1)

/-- A stored collector envelope's `data` block, tagged by the collector
shape it carries. -/
inductive AgentEnvData where
  | whale (d : WhaleData)
  | technical (d : TechData)
  | derivatives (d : DerivData)
  | narrative (d : NarrData)
  | market (d : MarketData)
deriving DecidableEq, Repr

/-- Build the typed view of `raw` (role → loaded envelope data) used by
the scorers. -/
def fusionInputsOf (raw : List (String × Option AgentEnvData)) : FusionInputs :=
  { whale := match dictGet raw "whale" none with | some (.whale d) => some d | _ => none
    technical :=
      match dictGet raw "technical" none with | some (.technical d) => some d | _ => none
    derivatives :=
      match dictGet raw "derivatives" none with | some (.derivatives d) => some d | _ => none
    narrative :=
      match dictGet raw "narrative" none with | some (.narrative d) => some d | _ => none
    market := match dictGet raw "market" none with | some (.market d) => some d | _ => none }

/-- The fusion result envelope (the fields of `result` in `fuse` that the
claims are about). -/
structure FusionEnvelope where
  agent : String
  status : String
  signals : List (String × AssetSignal)
  errors : List String
  agentsAvailable : List String
  agentsMissing : List String

/-- `SignalFusion.fuse` at envelope level. `store` is
`Storage.load_latest` restricted to the agent streams; `llmErrors` are
the entries the optional LLM-insight step (lines 189-217) may append to
`errors` before the status is computed. -/
def fuse (p : FusionProfile) (assets : List String)
    (agentNames : List (String × String)) (store : String → Option AgentEnvData)
    (prevOi prevScores : String → Option ℚ) (llmErrors : List String) : FusionEnvelope :=
  let raw := agentNames.map (fun rn => (rn.1, store rn.2))
  let agentErrors := raw.filterMap (fun rs =>
    if rs.2.isNone then some (rs.1 ++ ": no data in storage") else none)
  let inputs := fusionInputsOf raw
  let signals := assets.map (fun a =>
    (a, (fuseAsset p a inputs (prevOi a) (prevScores a)).1))
  let errors := agentErrors ++ llmErrors
  { agent := "signal_fusion"
    status := if errors.isEmpty then "success" else "partial"
    signals := signals
    errors := errors
    agentsAvailable := raw.filterMap (fun rs => if rs.2.isSome then some rs.1 else none)
    agentsMissing := raw.filterMap (fun rs => if rs.2.isNone then some rs.1 else none) }

/-! ### Bounds on the fusion pipeline -/

def sumWeights (w : Role → ℚ) : ℚ := w .whale + nonWhaleSum w

/-- Hypotheses C1 places on the per-dimension scoring rules: every
min/max clamp bound configured for a scorer lies in `[0, 100]`. Only the
whale scorer's `min_score`/`max_score` and the narrative scorer's
`max_score` are configurable; the other three scorers clamp to the
hard-coded `[0, 100]`. -/
def ScoringBoundsOk (cfg : ScoringCfg) : Prop :=
  0 ≤ cfg.whale.minScore ∧ cfg.whale.minScore ≤ 100 ∧
  0 ≤ cfg.whale.maxScore ∧ cfg.whale.maxScore ≤ 100 ∧
  0 ≤ cfg.narrative.maxScore ∧ cfg.narrative.maxScore ≤ 100

theorem scoreDimension_mem_Icc (p : FusionProfile) (asset : String)
    (inp : FusionInputs) (prevOi : Option ℚ) (hb : ScoringBoundsOk p.scoring) :
    ∀ r, 0 ≤ (scoreDimension p asset inp prevOi r).1 ∧
      (scoreDimension p asset inp prevOi r).1 ≤ 100 := by
  obtain ⟨h1, h2, h3, h4, h5, h6⟩ := hb
  intro r
  cases r with
  | whale =>
    simp only [scoreDimension]
    cases hwh : inp.whale with
    | none => dsimp only; norm_num
    | some d =>
      dsimp only
      cases hw : score_whale p.scoring.whale asset d with
      | ok v =>
        obtain ⟨s, det⟩ := v
        exact score_whale_mem_Icc hw h1 h2 h3 h4
      | error e => dsimp only; norm_num
  | technical =>
    simp only [scoreDimension]
    cases hwh : inp.technical with
    | none => dsimp only; norm_num
    | some d =>
      dsimp only
      cases ht : score_technical p.scoring.technical asset d with
      | ok v =>
        obtain ⟨s, det⟩ := v
        exact score_technical_mem_Icc ht
      | error e => dsimp only; norm_num
  | derivatives =>
    simp only [scoreDimension]
    cases hwh : inp.derivatives with
    | none => dsimp only; norm_num
    | some d => exact score_derivatives_mem_Icc _ _ _ _
  | narrative =>
    simp only [scoreDimension]
    cases hwh : inp.narrative with
    | none => dsimp only; norm_num
    | some d => exact score_narrative_mem_Icc _ _ _ h5 h6
  | market =>
    simp only [scoreDimension]
    cases hwh : inp.market with
    | none => dsimp only; norm_num
    | some d => exact score_market_mem_Icc _ _ _

theorem adjustedWeights_nonneg {w : Role → ℚ} {t : ℚ} (hw : ∀ r, 0 ≤ w r)
    (ht : 0 ≤ t) : ∀ r, 0 ≤ adjustedWeights w t r := by
  intro r
  unfold adjustedWeights
  split
  · exact hw r
  · rename_i hlt
    push_neg at hlt
    by_cases hr : r = Role.whale
    · simp only [hr, if_pos rfl]
      exact mul_nonneg (hw _) ht
    · simp only [if_neg hr]
      split
      · rename_i hS
        have hfreed : 0 ≤ w .whale - w .whale * t := by nlinarith [hw Role.whale]
        have : 0 ≤ (w .whale - w .whale * t) * (w r / nonWhaleSum w) :=
          mul_nonneg hfreed (div_nonneg (hw r) hS.le)
        linarith [hw r]
      · exact hw r

theorem adjustedWeights_whale {w : Role → ℚ} {t : ℚ} (h : ¬ t ≥ 1) :
    adjustedWeights w t Role.whale = w Role.whale * t := by
  unfold adjustedWeights
  rw [if_neg h]
  simp

theorem adjustedWeights_nonwhale {w : Role → ℚ} {t : ℚ} (h : ¬ t ≥ 1) {r : Role}
    (hr : r ≠ Role.whale) :
    adjustedWeights w t r =
      if nonWhaleSum w > 0 then
        w r + (w Role.whale - w Role.whale * t) * (w r / nonWhaleSum w)
      else w r := by
  unfold adjustedWeights
  rw [if_neg h]
  simp [hr]

/-- Reweighting preserves the weight mass exactly (before the 3-decimal
rounding of the reported weights), as long as the whale weight is kept
whole or the four non-whale weights do not all vanish. -/
theorem adjustedWeights_sum_eq {w : Role → ℚ} {t : ℚ}
    (h : 1 ≤ t ∨ 0 < nonWhaleSum w) :
    sumWeights (adjustedWeights w t) = sumWeights w := by
  by_cases ht1 : t ≥ 1
  · unfold adjustedWeights
    rw [if_pos ht1]
  · rcases h with h1 | hS
    · exact absurd h1 ht1
    · have hSne : nonWhaleSum w ≠ 0 := ne_of_gt hS
      unfold sumWeights
      rw [adjustedWeights_whale ht1]
      unfold nonWhaleSum
      rw [adjustedWeights_nonwhale ht1 (by simp), adjustedWeights_nonwhale ht1 (by simp),
        adjustedWeights_nonwhale ht1 (by simp), adjustedWeights_nonwhale ht1 (by simp)]
      rw [if_pos hS, if_pos hS, if_pos hS, if_pos hS]
      unfold nonWhaleSum at hSne ⊢
      field_simp
      ring

theorem adjustedWeights_sum_le {w : Role → ℚ} {t : ℚ} (hw : ∀ r, 0 ≤ w r)
    (hsum : sumWeights w = 1) (_ht : 0 ≤ t) :
    sumWeights (adjustedWeights w t) ≤ 1 := by
  by_cases hS : 0 < nonWhaleSum w
  · rw [adjustedWeights_sum_eq (Or.inr hS), hsum]
  · by_cases ht1 : t ≥ 1
    · rw [adjustedWeights_sum_eq (Or.inl ht1), hsum]
    · unfold sumWeights
      rw [adjustedWeights_whale ht1]
      unfold nonWhaleSum
      rw [adjustedWeights_nonwhale ht1 (by simp), adjustedWeights_nonwhale ht1 (by simp),
        adjustedWeights_nonwhale ht1 (by simp), adjustedWeights_nonwhale ht1 (by simp)]
      rw [if_neg hS, if_neg hS, if_neg hS, if_neg hS]
      push_neg at ht1
      have hwt : w Role.whale * t ≤ w Role.whale * 1 :=
        mul_le_mul_of_nonneg_left ht1.le (hw Role.whale)
      unfold sumWeights nonWhaleSum at hsum
      linarith

theorem compositeRaw_mem_Icc {sc w : Role → ℚ}
    (hs : ∀ r, 0 ≤ sc r ∧ sc r ≤ 100) (hw : ∀ r, 0 ≤ w r)
    (hsum : sumWeights w ≤ 1) : 0 ≤ compositeRaw sc w ∧ compositeRaw sc w ≤ 100 := by
  unfold compositeRaw
  unfold sumWeights nonWhaleSum at hsum
  obtain ⟨ha0, ha1⟩ := hs Role.whale
  obtain ⟨hb0, hb1⟩ := hs Role.technical
  obtain ⟨hc0, hc1⟩ := hs Role.derivatives
  obtain ⟨hd0, hd1⟩ := hs Role.narrative
  obtain ⟨he0, he1⟩ := hs Role.market
  have hwa := hw Role.whale
  have hwb := hw Role.technical
  have hwc := hw Role.derivatives
  have hwd := hw Role.narrative
  have hwe := hw Role.market
  constructor
  · have := mul_nonneg ha0 hwa
    have := mul_nonneg hb0 hwb
    have := mul_nonneg hc0 hwc
    have := mul_nonneg hd0 hwd
    have := mul_nonneg he0 hwe
    linarith
  · have h1 : sc .whale * w .whale ≤ 100 * w .whale := mul_le_mul_of_nonneg_right ha1 hwa
    have h2 : sc .technical * w .technical ≤ 100 * w .technical :=
      mul_le_mul_of_nonneg_right hb1 hwb
    have h3 : sc .derivatives * w .derivatives ≤ 100 * w .derivatives :=
      mul_le_mul_of_nonneg_right hc1 hwc
    have h4 : sc .narrative * w .narrative ≤ 100 * w .narrative :=
      mul_le_mul_of_nonneg_right hd1 hwd
    have h5 : sc .market * w .market ≤ 100 * w .market :=
      mul_le_mul_of_nonneg_right he1 hwe
    linarith

theorem convictionStep_mem_Icc (cfg : ConvictionCfg) (sc : Role → ℚ) {c : ℚ}
    (hc : 0 ≤ c ∧ c ≤ 100) :
    0 ≤ (convictionStep cfg sc c).1 ∧ (convictionStep cfg sc c).1 ≤ 100 := by
  unfold convictionStep
  split
  · dsimp only
    exact pyRoundTo_mem_Icc (le_max_left _ _) (max_le (by norm_num) (min_le_left _ _))
  · exact hc

instance (cfg : ScoringCfg) : Decidable (ScoringBoundsOk cfg) := by
  unfold ScoringBoundsOk
  infer_instance

theorem dictGet_rat_nonneg {l : List (String × ℚ)} {k : String}
    (h : ∀ kv ∈ l, 0 ≤ kv.2) : 0 ≤ dictGet l k 1 := by
  unfold dictGet
  induction l with
  | nil => norm_num [List.lookup]
  | cons hd tl ih =>
    obtain ⟨k', v⟩ := hd
    rw [List.lookup]
    cases hbeq : k == k' with
    | true => exact h (k', v) (List.mem_cons_self _ _)
    | false => exact ih (fun kv hkv => h kv (List.mem_cons_of_mem _ hkv))

/-- A representative fusion profile: the weights of spec scenario 2 with
every other profile block left at its engine defaults. -/
def sampleWeights : Role → ℚ
  | .whale => 0.3
  | .technical => 0.25
  | .derivatives => 0.2
  | .narrative => 0.15
  | .market => 0.1

def sampleProfile : FusionProfile := { weights := sampleWeights }

/-- C1: for every asset in any fusion run, the composite score lies in
`[0, 100]`, whether or not the conviction transform is enabled —
provided the profile weights are non-negative and sum to 1, every
scoring rule's min/max bound lies in `[0, 100]`, and (the amendment
forced by `C1_counterexample`) every configured reweighting tier
multiplier is non-negative. -/
theorem C1_composite_score_in_range (p : FusionProfile) (asset : String)
    (inp : FusionInputs) (prevOi prevScore : Option ℚ)
    (hw : ∀ r, 0 ≤ p.weights r) (hsum : sumWeights p.weights = 1)
    (hb : ScoringBoundsOk p.scoring)
    (hmult : ∀ kv ∈ p.reweighting.tierMultipliers, 0 ≤ kv.2) :
    0 ≤ (fuseAsset p asset inp prevOi prevScore).1.compositeScore ∧
      (fuseAsset p asset inp prevOi prevScore).1.compositeScore ≤ 100 := by
  have hsc := scoreDimension_mem_Icc p asset inp prevOi hb
  have htm : (0:ℚ) ≤ dictGet p.reweighting.tierMultipliers
      (whaleDataTierOf p.reweighting (scoreDimension p asset inp prevOi .whale).2) 1 :=
    dictGet_rat_nonneg hmult
  have hadjn := adjustedWeights_nonneg hw htm
  have hadjs := adjustedWeights_sum_le hw hsum htm
  have hcraw := compositeRaw_mem_Icc hsc hadjn hadjs
  have hcomp0 := pyRoundTo_mem_Icc (n := 1) hcraw.1 hcraw.2
  simp only [fuseAsset]
  exact convictionStep_mem_Icc _ _ hcomp0

/-- Witness for C1 at the representative profile: the hypotheses hold and
the composite of a cold-start run (no agent data) lies in `[0, 100]`. -/
theorem C1_composite_score_in_range_witness :
    (sumWeights sampleProfile.weights = 1 ∧ ScoringBoundsOk sampleProfile.scoring) ∧
    (0 ≤ (fuseAsset sampleProfile "BTC" {} none none).1.compositeScore ∧
      (fuseAsset sampleProfile "BTC" {} none none).1.compositeScore ≤ 100) :=
  ⟨by with_unfolding_all decide,
   C1_composite_score_in_range sampleProfile "BTC" {} none none
     (by with_unfolding_all decide)
     (by with_unfolding_all decide)
     (by with_unfolding_all decide)
     (by with_unfolding_all decide)⟩

/-- A profile meeting every precondition C1 states (non-negative weights
summing to 1, scoring bounds inside `[0, 100]`) whose `none`-tier
multiplier is negative and whose conviction transform is disabled. -/
def cxProfileC1 : FusionProfile :=
  { weights := fun r => if r = .whale then 1 else 0
    conviction := { enabled := false }
    reweighting :=
      { enabled := true
        tierMultipliers := [("full", 1), ("sparse", 0.5), ("none", -1)] } }

/-- Counterexample to C1 as stated: with all collector envelopes missing,
every dimension scores 50, the whale tier classifies as `none`, and the
negative tier multiplier drives the composite to `-50 ∉ [0, 100]` — the
conviction clamp being disabled, nothing repairs it. The claim's stated
preconditions all hold. -/
theorem C1_counterexample :
    (∀ r, 0 ≤ cxProfileC1.weights r) ∧ sumWeights cxProfileC1.weights = 1 ∧
    ScoringBoundsOk cxProfileC1.scoring ∧
    (fuseAsset cxProfileC1 "BTC" {} none none).1.compositeScore = -50 := by
  refine ⟨?_, ?_, ?_, ?_⟩ <;> with_unfolding_all decide

/-! ### C2: monotonicity of the conviction boost -/

theorem clampRound_ge {c x : ℚ} (hc1 : c ≤ 100) (hfix : pyRoundTo 1 c = c)
    (h : c ≤ x) : c ≤ pyRoundTo 1 (max 0 (min 100 x)) := by
  have h1 : c ≤ max 0 (min 100 x) := le_trans (le_min hc1 h) (le_max_right _ _)
  calc c = pyRoundTo 1 c := hfix.symm
    _ ≤ pyRoundTo 1 (max 0 (min 100 x)) := pyRoundTo_mono h1

theorem clampRound_le {c x : ℚ} (hc0 : 0 ≤ c) (hfix : pyRoundTo 1 c = c)
    (h : x ≤ c) : pyRoundTo 1 (max 0 (min 100 x)) ≤ c := by
  have h1 : max 0 (min 100 x) ≤ c := max_le hc0 (le_trans (min_le_right _ _) h)
  calc pyRoundTo 1 (max 0 (min 100 x)) ≤ pyRoundTo 1 c := pyRoundTo_mono h1
    _ = c := hfix

/-- C2 (amended): with the conviction transform enabled, `boost_factor ≥ 1`
and the pre-boost composite a one-decimal value in `[0,100]` (as Step 4
produces), the boost is monotone — provided the bull and bear counts do
not both reach `min_agreeing_dimensions` (the amendment forced by
`C2_counterexample`; automatic whenever `min_agreeing_dimensions ≥ 3`,
since only five dimensions exist). -/
theorem C2_conviction_boost_monotone (cfg : ConvictionCfg) (sc : Role → ℚ) (k : ℤ)
    (hen : cfg.enabled = true) (hbf : 1 ≤ cfg.boostFactor)
    (hc0 : 0 ≤ ((k : ℚ) / 10)) (hc1 : ((k : ℚ) / 10) ≤ 100)
    (hnotBoth : ¬ (cfg.minAgreeingDimensions ≤ (bullishCount sc : ℤ) ∧
                   cfg.minAgreeingDimensions ≤ (bearishCount sc : ℤ))) :
    (cfg.minAgreeingDimensions ≤ (bullishCount sc : ℤ) →
      (k : ℚ) / 10 ≤ (convictionStep cfg sc ((k : ℚ) / 10)).1) ∧
    (cfg.minAgreeingDimensions ≤ (bearishCount sc : ℤ) →
      (convictionStep cfg sc ((k : ℚ) / 10)).1 ≤ (k : ℚ) / 10) ∧
    ((bullishCount sc : ℤ) < cfg.minAgreeingDimensions ∧
       (bearishCount sc : ℤ) < cfg.minAgreeingDimensions →
      (convictionStep cfg sc ((k : ℚ) / 10)).1 = (k : ℚ) / 10) := by
  set c : ℚ := (k : ℚ) / 10 with hcdef
  have hfix : pyRoundTo 1 c = c := by
    have := pyRoundTo_of_scaled_int 1 k
    rwa [show ((10:ℚ) ^ (1:ℕ)) = 10 by norm_num] at this
  unfold convictionStep
  rw [hen]
  simp only [if_true]
  refine ⟨?_, ?_, ?_⟩
  · intro hbull
    split
    · rename_i hcond
      obtain ⟨-, hgt⟩ := hcond
      have hinner : c ≤ 50 + (c - 50) * cfg.boostFactor := by nlinarith
      have hr : c ≤ pyRoundTo 1 (50 + (c - 50) * cfg.boostFactor) := by
        calc c = pyRoundTo 1 c := hfix.symm
          _ ≤ _ := pyRoundTo_mono hinner
      exact clampRound_ge hc1 hfix hr
    · rename_i hcond1
      split
      · rename_i hcond2
        exact absurd ⟨hbull, hcond2.1⟩ hnotBoth
      · exact clampRound_ge hc1 hfix (le_refl c)
  · intro hbear
    split
    · rename_i hcond
      exact absurd ⟨hcond.1, hbear⟩ hnotBoth
    · split
      · rename_i hcond2
        obtain ⟨-, hlt⟩ := hcond2
        have hinner : 50 - (50 - c) * cfg.boostFactor ≤ c := by nlinarith
        have hr : pyRoundTo 1 (50 - (50 - c) * cfg.boostFactor) ≤ c := by
          calc pyRoundTo 1 (50 - (50 - c) * cfg.boostFactor)
              ≤ pyRoundTo 1 c := pyRoundTo_mono hinner
            _ = c := hfix
        exact clampRound_le hc0 hfix hr
      · exact clampRound_le hc0 hfix (le_refl c)
  · rintro ⟨hb1, hb2⟩
    rw [if_neg (by intro hcond; exact absurd hcond.1 (not_le.mpr hb1)),
        if_neg (by intro hcond; exact absurd hcond.1 (not_le.mpr hb2))]
    rw [min_eq_right hc1, max_eq_right hc0, hfix]

/-- The dimension scores of C2's witness: one bullish dimension, the
rest neutral. -/
def scW : Role → ℚ := fun r => if r = .whale then 70 else 50

def cfgW : ConvictionCfg := { minAgreeingDimensions := 1 }

/-- Witness for C2: with one agreeing bullish dimension and pre-boost
composite 60.0, the boosted composite 62.5 is indeed ≥ 60.0. -/
theorem C2_conviction_boost_monotone_witness :
    cfgW.enabled = true ∧ 1 ≤ cfgW.boostFactor ∧
    cfgW.minAgreeingDimensions ≤ (bullishCount scW : ℤ) ∧
    (convictionStep cfgW scW ((600 : ℚ) / 10)).1 = 62.5 ∧
    (600 : ℚ) / 10 ≤ (convictionStep cfgW scW ((600 : ℚ) / 10)).1 :=
  ⟨by with_unfolding_all decide, by with_unfolding_all decide,
   by with_unfolding_all decide, by with_unfolding_all decide,
   (C2_conviction_boost_monotone cfgW scW 600
      (by with_unfolding_all decide) (by with_unfolding_all decide)
      (by with_unfolding_all decide) (by with_unfolding_all decide)
      (by with_unfolding_all decide)).1 (by with_unfolding_all decide)⟩

/-- The dimension scores of C2's counterexample: two bullish, two
bearish, one neutral dimension. -/
def scCx : Role → ℚ
  | .whale => 60
  | .technical => 60
  | .derivatives => 40
  | .narrative => 40
  | .market => 50

def cfgCx : ConvictionCfg := { minAgreeingDimensions := 2 }

/-- Counterexample to C2 as stated: with `min_agreeing_dimensions = 2`
both counts reach the threshold (`bull = bear = 2`); the Step 4 composite
under the representative weights is 52 > 50, so the *bull* branch fires
and the post-boost composite 52.5 exceeds the pre-boost one — falsifying
the claim's clause `bear ≥ min_agreeing → post ≤ pre`. -/
theorem C2_counterexample :
    pyRoundTo 1 (compositeRaw scCx sampleWeights) = 52 ∧
    cfgCx.minAgreeingDimensions ≤ (bearishCount scCx : ℤ) ∧
    1 ≤ cfgCx.boostFactor ∧
    (convictionStep cfgCx scCx 52).1 = 52.5 ∧
    ¬ ((convictionStep cfgCx scCx 52).1 ≤ 52) := by
  refine ⟨?_, ?_, ?_, ?_, ?_⟩ <;> with_unfolding_all decide

/-! ### C3: weight mass preservation -/

/-- The sum over the five dimensions of the `weight` reported in the
fusion envelope's `dimensions` map. -/
def sumReportedWeights (sig : AssetSignal) : ℚ :=
  (sig.dimensions .whale).weight + (sig.dimensions .technical).weight
    + (sig.dimensions .derivatives).weight + (sig.dimensions .narrative).weight
    + (sig.dimensions .market).weight

theorem fuseAsset_dimension_weight (p : FusionProfile) (asset : String)
    (inp : FusionInputs) (prevOi prevScore : Option ℚ) (r : Role) :
    ((fuseAsset p asset inp prevOi prevScore).1.dimensions r).weight =
      pyRoundTo 3 (adjustedWeights p.weights
        (dictGet p.reweighting.tierMultipliers
          (whaleDataTierOf p.reweighting (scoreDimension p asset inp prevOi .whale).2) 1)
        r) := rfl

/-- C3 (amended): for every asset, the *unrounded* adjusted weights sum
exactly to the configured weight total as long as the four non-whale
weights do not all vanish, and the reported weights — each rounded to
three decimals — sum to the configured total within `±1/400` (=2.5e-3).
The claimed `±1e-9` tolerance fails: see `C3_counterexample`. -/
theorem C3_weight_mass (p : FusionProfile) (asset : String) (inp : FusionInputs)
    (prevOi prevScore : Option ℚ) (hS : 0 < nonWhaleSum p.weights) :
    |sumReportedWeights (fuseAsset p asset inp prevOi prevScore).1 - sumWeights p.weights|
        ≤ 1/400 ∧
    (∀ t : ℚ, sumWeights (adjustedWeights p.weights t) = sumWeights p.weights) := by
  have hall : ∀ t : ℚ, sumWeights (adjustedWeights p.weights t) = sumWeights p.weights :=
    fun t => adjustedWeights_sum_eq (Or.inr hS)
  refine ⟨?_, hall⟩
  unfold sumReportedWeights
  simp only [fuseAsset_dimension_weight]
  set t0 := dictGet p.reweighting.tierMultipliers
    (whaleDataTierOf p.reweighting (scoreDimension p asset inp prevOi .whale).2) 1 with ht0
  have hsum := hall t0
  unfold sumWeights nonWhaleSum at hsum
  have hbound : ∀ r : Role,
      -(1/2000 : ℚ) ≤ pyRoundTo 3 (adjustedWeights p.weights t0 r)
          - adjustedWeights p.weights t0 r ∧
        pyRoundTo 3 (adjustedWeights p.weights t0 r)
          - adjustedWeights p.weights t0 r ≤ 1/2000 := by
    intro r
    have h := pyRoundTo_sub_le 3 (adjustedWeights p.weights t0 r)
    rw [show (1 : ℚ) / (2 * (10:ℚ) ^ (3:ℕ)) = 1/2000 by norm_num] at h
    exact abs_le.mp h
  obtain ⟨ha1, ha2⟩ := hbound Role.whale
  obtain ⟨hb1, hb2⟩ := hbound Role.technical
  obtain ⟨hc1, hc2⟩ := hbound Role.derivatives
  obtain ⟨hd1, hd2⟩ := hbound Role.narrative
  obtain ⟨he1, he2⟩ := hbound Role.market
  rw [abs_le]
  unfold sumWeights nonWhaleSum
  constructor <;> linarith

/-- Witness for C3 at the representative profile (non-whale mass 0.7 > 0). -/
theorem C3_weight_mass_witness :
    (0 < nonWhaleSum sampleProfile.weights) ∧
    (|sumReportedWeights (fuseAsset sampleProfile "BTC" {} none none).1
        - sumWeights sampleProfile.weights| ≤ 1/400 ∧
      (∀ t : ℚ, sumWeights (adjustedWeights sampleProfile.weights t)
        = sumWeights sampleProfile.weights)) :=
  ⟨by with_unfolding_all decide,
   C3_weight_mass sampleProfile "BTC" {} none none (by with_unfolding_all decide)⟩

/-- A profile whose reweighted, 3-decimal-rounded weights lose 0.001 of
mass: weights (0.4, 0.3, 0.2, 0.05, 0.05) with the whale tier `none`. -/
def cxProfileC3a : FusionProfile :=
  { weights := fun r => match r with
      | .whale => 0.4 | .technical => 0.3 | .derivatives => 0.2
      | .narrative => 0.05 | .market => 0.05
    reweighting := { enabled := true } }

/-- A profile whose whole weight mass sits on the whale dimension; with
tier `none` the freed weight has nowhere to go and simply vanishes. -/
def cxProfileC3b : FusionProfile :=
  { weights := fun r => if r = .whale then 1 else 0
    reweighting := { enabled := true } }

/-- Counterexample to C3 as stated: (a) with weights summing to 1 the
reported (3-decimal-rounded) weights sum to 0.999 on a cold-start run
with the whale tier `none` — off the configured total by 1e-3 ≫ 1e-9;
(b) when the four non-whale weights are all zero, even the unrounded
mass collapses to 0. -/
theorem C3_counterexample :
    sumWeights cxProfileC3a.weights = 1 ∧
    sumReportedWeights (fuseAsset cxProfileC3a "BTC" {} none none).1 = 999/1000 ∧
    ¬ (|sumReportedWeights (fuseAsset cxProfileC3a "BTC" {} none none).1 - 1|
        ≤ 1/1000000000) ∧
    sumWeights cxProfileC3b.weights = 1 ∧
    sumReportedWeights (fuseAsset cxProfileC3b "BTC" {} none none).1 = 0 := by
  refine ⟨?_, ?_, ?_, ?_, ?_⟩ <;> with_unfolding_all decide

/-! ### C7: momentum step -/

/-- C7: per asset, a missing `fusion_scores` kv entry yields momentum
`new` with a null `prev_score`; otherwise the delta of the new composite
against the previous score picks the improving / degrading / stable
label (with the configured threshold, non-negative as in any sensible
profile); the reported `prev_score` is the previous score rounded to one
decimal, and the value stored back to the kv namespace is the new
composite. -/
theorem C7_momentum_step (p : FusionProfile) (asset : String) (inp : FusionInputs)
    (prevOi : Option ℚ) (ht : 0 ≤ p.momentum.threshold) :
    ((fuseAsset p asset inp prevOi none).1.momentum = "new" ∧
      (fuseAsset p asset inp prevOi none).1.prevScore = none) ∧
    (∀ ps : ℚ,
      ((fuseAsset p asset inp prevOi (some ps)).1.compositeScore - ps
          > p.momentum.threshold →
        (fuseAsset p asset inp prevOi (some ps)).1.momentum = p.momentum.improvingLabel) ∧
      ((fuseAsset p asset inp prevOi (some ps)).1.compositeScore - ps
          < -p.momentum.threshold →
        (fuseAsset p asset inp prevOi (some ps)).1.momentum = p.momentum.degradingLabel) ∧
      (¬ ((fuseAsset p asset inp prevOi (some ps)).1.compositeScore - ps
            > p.momentum.threshold) →
       ¬ ((fuseAsset p asset inp prevOi (some ps)).1.compositeScore - ps
            < -p.momentum.threshold) →
        (fuseAsset p asset inp prevOi (some ps)).1.momentum = p.momentum.stableLabel) ∧
      (fuseAsset p asset inp prevOi (some ps)).1.prevScore = some (pyRoundTo 1 ps)) ∧
    (∀ psOpt : Option ℚ,
      (fuseAsset p asset inp prevOi psOpt).2
        = (fuseAsset p asset inp prevOi psOpt).1.compositeScore) := by
  refine ⟨⟨rfl, rfl⟩, ?_, fun psOpt => rfl⟩
  intro ps
  have hm : (fuseAsset p asset inp prevOi (some ps)).1.momentum
      = momentumOf p.momentum (some ps)
          (fuseAsset p asset inp prevOi (some ps)).1.compositeScore := rfl
  refine ⟨?_, ?_, ?_, rfl⟩
  · intro h
    rw [hm]
    unfold momentumOf
    dsimp only
    rw [if_pos h]
  · intro h
    rw [hm]
    unfold momentumOf
    have hnot : ¬ ((fuseAsset p asset inp prevOi (some ps)).1.compositeScore - ps
        > p.momentum.threshold) := by
      push_neg
      linarith
    dsimp only
    rw [if_neg hnot, if_pos h]
  · intro h1 h2
    rw [hm]
    unfold momentumOf
    dsimp only
    rw [if_neg h1, if_neg h2]

/-- The profile of C7's witness: all weight on the market dimension and a
price-change rule awarding 66.2 points; conviction disabled. -/
def profileC7 : FusionProfile :=
  { weights := fun r => if r = .market then 1 else 0
    scoring := { market := { priceChange := { strongPositiveScore := 66.2 } } }
    conviction := { enabled := false } }

def inputC7 : FusionInputs :=
  { market := some { perAsset := [("BTC", { change24hPct := some 10 })] } }

/-- Witness for C7, the spec's momentum-transition scenario: a second run
from `prev_score = 60` yielding composite 66.2 with threshold 5 emits
momentum "improving" and `prev_score = 60.0`; the new composite is the
value stored back. -/
theorem C7_momentum_step_witness :
    (fuseAsset profileC7 "BTC" inputC7 none (some 60)).1.compositeScore = 66.2 ∧
    (fuseAsset profileC7 "BTC" inputC7 none (some 60)).1.momentum = "improving" ∧
    (fuseAsset profileC7 "BTC" inputC7 none (some 60)).1.prevScore = some 60 ∧
    (fuseAsset profileC7 "BTC" inputC7 none none).1.momentum = "new" ∧
    (fuseAsset profileC7 "BTC" inputC7 none (some 60)).2 = 66.2 := by
  have hthm := C7_momentum_step profileC7 "BTC" inputC7 none (by with_unfolding_all decide)
  refine ⟨by with_unfolding_all decide, ?_, by with_unfolding_all decide,
    hthm.1.1, by with_unfolding_all decide⟩
  have := (hthm.2.1 60).1 (by with_unfolding_all decide)
  rwa [show profileC7.momentum.improvingLabel = "improving" from rfl] at this

/-! ### C10: the fusion envelope's status is never "error" -/

theorem dictGet_none {α : Type} (l : List (String × Option α)) (k : String)
    (h : ∀ kv ∈ l, kv.2 = none) : dictGet l k none = none := by
  unfold dictGet
  induction l with
  | nil => rfl
  | cons hd tl ih =>
    obtain ⟨k', v⟩ := hd
    rw [List.lookup]
    cases hbeq : k == k' with
    | true => exact h (k', v) (List.mem_cons_self _ _)
    | false => exact ih (fun kv hkv => h kv (List.mem_cons_of_mem _ hkv))

theorem fusionInputsOf_all_none (raw : List (String × Option AgentEnvData))
    (h : ∀ kv ∈ raw, kv.2 = none) : fusionInputsOf raw = {} := by
  unfold fusionInputsOf
  rw [dictGet_none raw "whale" h, dictGet_none raw "technical" h,
    dictGet_none raw "derivatives" h, dictGet_none raw "narrative" h,
    dictGet_none raw "market" h]

theorem fuse_missing_errors (agentNames : List (String × String))
    (store : String → Option AgentEnvData) (h : ∀ name, store name = none) :
    (agentNames.map (fun rn => (rn.1, store rn.2))).filterMap
        (fun rs => if rs.2.isNone then some (rs.1 ++ ": no data in storage") else none)
      = agentNames.map (fun rn => rn.1 ++ ": no data in storage") := by
  induction agentNames with
  | nil => rfl
  | cons hd tl ih =>
    rw [List.map_cons, List.filterMap_cons]
    rw [show store hd.2 = none from h hd.2]
    rw [List.map_cons, ← ih]
    rfl

theorem fuse_errors_def (p : FusionProfile) (assets : List String)
    (agentNames : List (String × String)) (store : String → Option AgentEnvData)
    (prevOi prevScores : String → Option ℚ) (llmErrors : List String) :
    (fuse p assets agentNames store prevOi prevScores llmErrors).errors
      = (agentNames.map (fun rn => (rn.1, store rn.2))).filterMap
          (fun rs => if rs.2.isNone then some (rs.1 ++ ": no data in storage") else none)
        ++ llmErrors := rfl

theorem fuse_status_def (p : FusionProfile) (assets : List String)
    (agentNames : List (String × String)) (store : String → Option AgentEnvData)
    (prevOi prevScores : String → Option ℚ) (llmErrors : List String) :
    (fuse p assets agentNames store prevOi prevScores llmErrors).status
      = (if ((agentNames.map (fun rn => (rn.1, store rn.2))).filterMap
              (fun rs => if rs.2.isNone then some (rs.1 ++ ": no data in storage") else none)
            ++ llmErrors).isEmpty then "success" else "partial") := rfl

theorem fuse_signals_def (p : FusionProfile) (assets : List String)
    (agentNames : List (String × String)) (store : String → Option AgentEnvData)
    (prevOi prevScores : String → Option ℚ) (llmErrors : List String) :
    (fuse p assets agentNames store prevOi prevScores llmErrors).signals
      = assets.map (fun a =>
          (a, (fuseAsset p a
                 (fusionInputsOf (agentNames.map (fun rn => (rn.1, store rn.2))))
                 (prevOi a) (prevScores a)).1)) := rfl

/-- C10: the fusion envelope's status is always "success" or "partial",
never "error"; and on a cold start — every collector envelope absent —
the status is "partial", the errors list holds exactly one
"role: no data in storage" entry per configured agent, and every profile
asset still carries all five dimensions, each scoring 50.0 with detail
"no data". -/
theorem C10_fuse_status_never_error (p : FusionProfile) (assets : List String)
    (agentNames : List (String × String)) (store : String → Option AgentEnvData)
    (prevOi prevScores : String → Option ℚ) (llmErrors : List String) :
    ((fuse p assets agentNames store prevOi prevScores llmErrors).status = "success" ∨
     (fuse p assets agentNames store prevOi prevScores llmErrors).status = "partial") ∧
    ((∀ name, store name = none) → llmErrors = [] →
      (fuse p assets agentNames store prevOi prevScores llmErrors).errors
          = agentNames.map (fun rn => rn.1 ++ ": no data in storage") ∧
      (agentNames ≠ [] →
        (fuse p assets agentNames store prevOi prevScores llmErrors).status = "partial") ∧
      (∀ a ∈ assets,
        (a, (fuseAsset p a {} (prevOi a) (prevScores a)).1)
            ∈ (fuse p assets agentNames store prevOi prevScores llmErrors).signals ∧
        ∀ r : Role,
          ((fuseAsset p a {} (prevOi a) (prevScores a)).1.dimensions r).score = 50 ∧
          ((fuseAsset p a {} (prevOi a) (prevScores a)).1.dimensions r).detail
            = "no data")) := by
  constructor
  · rw [fuse_status_def]
    split
    · exact Or.inl rfl
    · exact Or.inr rfl
  · intro hstore hllm
    have hraw : ∀ kv ∈ agentNames.map (fun rn => (rn.1, store rn.2)), kv.2 = none := by
      intro kv hkv
      obtain ⟨rn, -, rfl⟩ := List.mem_map.mp hkv
      exact hstore rn.2
    have herr : (fuse p assets agentNames store prevOi prevScores llmErrors).errors
        = agentNames.map (fun rn => rn.1 ++ ": no data in storage") := by
      rw [fuse_errors_def, hllm, List.append_nil,
        fuse_missing_errors agentNames store hstore]
    refine ⟨herr, ?_, ?_⟩
    · intro hne
      rw [fuse_status_def, hllm, List.append_nil,
        fuse_missing_errors agentNames store hstore]
      rw [if_neg]
      intro hemp
      rw [List.isEmpty_iff] at hemp
      exact hne (List.map_eq_nil_iff.mp hemp)
    · intro a ha
      have hinp : fusionInputsOf (agentNames.map (fun rn => (rn.1, store rn.2))) = {} :=
        fusionInputsOf_all_none _ hraw
      constructor
      · rw [fuse_signals_def, hinp]
        exact List.mem_map.mpr ⟨a, ha, rfl⟩
      · intro r
        have hsc : scoreDimension p a {} (prevOi a) r = (50, "no data") := by
          cases r <;> rfl
        constructor
        · show pyRoundTo 1 (scoreDimension p a {} (prevOi a) r).1 = 50
          rw [hsc]
          have := pyRoundTo_intCast 1 50
          simpa using this
        · show (scoreDimension p a {} (prevOi a) r).2 = "no data"
          rw [hsc]

/-- Witness for C10: the standard five collectors, all absent from
storage — the envelope is "partial" with one error per agent and
all-50.0 "no data" dimensions. -/
theorem C10_fuse_status_never_error_witness :
    (fuse sampleProfile ["BTC"]
        [("whale", "whale_agent"), ("technical", "technical_agent"),
         ("derivatives", "derivatives_agent"), ("narrative", "narrative_agent"),
         ("market", "market_agent")]
        (fun _ => none) (fun _ => none) (fun _ => none) []).status = "partial" ∧
    (fuse sampleProfile ["BTC"]
        [("whale", "whale_agent"), ("technical", "technical_agent"),
         ("derivatives", "derivatives_agent"), ("narrative", "narrative_agent"),
         ("market", "market_agent")]
        (fun _ => none) (fun _ => none) (fun _ => none) []).errors
      = ["whale: no data in storage", "technical: no data in storage",
         "derivatives: no data in storage", "narrative: no data in storage",
         "market: no data in storage"] ∧
    ∀ r : Role,
      ((fuseAsset sampleProfile "BTC" {} none none).1.dimensions r).score = 50 ∧
      ((fuseAsset sampleProfile "BTC" {} none none).1.dimensions r).detail = "no data" := by
  have h := C10_fuse_status_never_error sampleProfile ["BTC"]
    [("whale", "whale_agent"), ("technical", "technical_agent"),
     ("derivatives", "derivatives_agent"), ("narrative", "narrative_agent"),
     ("market", "market_agent")]
    (fun _ => none) (fun _ => none) (fun _ => none) []
  obtain ⟨-, h2⟩ := h
  obtain ⟨herr, hpart, hassets⟩ := h2 (fun _ => rfl) rfl
  refine ⟨hpart (by simp), by simpa using herr, ?_⟩
  exact (hassets "BTC" (by simp)).2

/-! ## Agent framework: `src/shared/base_agent.py` -/

/-- The outcome of a `collect()` call as `execute` observes it: a
returned `(data, errors)` pair, or a raised exception with its message.
The data dict is modelled as an association list — only its truthiness
(non-emptiness) and identity matter to `execute`. -/
inductive CollectOutcome where
  | returns (data : List (String × String)) (errors : List String)
  | raises (msg : String)
deriving DecidableEq, Repr

/-- The fields of the agent result envelope that C4 is about. -/
structure AgentEnvelope where
  status : String
  data : List (String × String)
  errors : List String
deriving DecidableEq, Repr

/-- `BaseAgent.execute`: `status` starts as "success" with
`data = empty_data()`; a successful `collect()` replaces both and, when
`errors` is non-empty, downgrades the status to "partial" when the data
dict is truthy and "error" otherwise; a raised exception yields "error"
with the empty payload and the exception message as the only error. -/
def execute (emptyData : List (String × String)) (outcome : CollectOutcome) :
    AgentEnvelope :=
  match outcome with
  | .raises msg => { status := "error", data := emptyData, errors := [msg] }
  | .returns d errs =>
    { status := if errs.isEmpty then "success"
                else if ¬ d.isEmpty then "partial" else "error"
      data := d
      errors := errs }

/-- C4 (amended): in every envelope `execute` produces,
`status = "success" ↔ errors = []`; `status = "error"` implies the data
is `empty_data()` (exception path) or the empty dict (empty data with
errors); on the exception path the data is exactly `empty_data()`; and a
"partial" envelope always has truthy data. The original claim's stronger
clauses — "success only with non-empty data" and
"error implies data = empty_data()" — fail: see `C4_counterexample`. -/
theorem C4_execute_status (emptyData : List (String × String))
    (outcome : CollectOutcome) :
    ((execute emptyData outcome).status = "success"
        ↔ (execute emptyData outcome).errors = []) ∧
    ((execute emptyData outcome).status = "error" →
      (execute emptyData outcome).data = emptyData
        ∨ (execute emptyData outcome).data = []) ∧
    (∀ msg, outcome = .raises msg →
      (execute emptyData outcome).status = "error"
        ∧ (execute emptyData outcome).data = emptyData) ∧
    ((execute emptyData outcome).status = "partial" →
      ¬ (execute emptyData outcome).data.isEmpty) := by
  cases outcome with
  | raises msg =>
    refine ⟨?_, fun _ => Or.inl rfl, fun m hm => ⟨rfl, rfl⟩, ?_⟩
    · constructor
      · intro h
        exact absurd h (by simp [execute])
      · intro h
        exact absurd h (by simp [execute])
    · intro h
      exact absurd h (by simp [execute])
  | returns d errs =>
    cases herrs : errs.isEmpty with
    | true =>
      have : errs = [] := List.isEmpty_iff.mp herrs
      subst this
      refine ⟨by simp [execute], ?_, by simp, by simp [execute]⟩
      intro h
      exact absurd h (by simp [execute])
    | false =>
      cases hd : d.isEmpty with
      | true =>
        have hdnil : d = [] := List.isEmpty_iff.mp hd
        subst hdnil
        refine ⟨?_, fun _ => Or.inr rfl, by simp, ?_⟩
        · simp [execute, herrs]
          intro hnil
          rw [hnil] at herrs
          simp at herrs
        · simp [execute, herrs]
      | false =>
        refine ⟨?_, ?_, by simp, ?_⟩
        · simp [execute, herrs, hd]
          intro hnil
          rw [hnil] at herrs
          simp at herrs
        · simp [execute, herrs, hd]
        · simp [execute, herrs, hd]

/-- Witness for C4 on the exception path: `execute` yields status
"error" with `data = empty_data()`. -/
theorem C4_execute_status_witness :
    (execute [("by_asset", "…")] (.raises "boom")).status = "error" ∧
    ((execute [("by_asset", "…")] (.raises "boom")).data = [("by_asset", "…")] ∨
      (execute [("by_asset", "…")] (.raises "boom")).data = []) :=
  ⟨rfl, (C4_execute_status [("by_asset", "…")] (.raises "boom")).2.1 rfl⟩

/-- Counterexample to C4 as stated, with a non-empty `empty_data()` as
every real collector has: (a) `collect()` returning `({}, [])` yields
status "success" with empty data, although the claim's derivation says
"success only when data non-empty" and "error whenever data is empty";
(b) `collect()` returning `({}, ["boom"])` yields status "error" with
`data = {} ≠ empty_data()`. -/
theorem C4_counterexample :
    (execute [("by_asset", "…")] (.returns [] [])).status = "success" ∧
    (execute [("by_asset", "…")] (.returns [] [])).data = [] ∧
    (execute [("by_asset", "…")] (.returns [] ["boom"])).status = "error" ∧
    (execute [("by_asset", "…")] (.returns [] ["boom"])).data ≠ [("by_asset", "…")] := by
  refine ⟨rfl, rfl, rfl, ?_⟩
  decide

/-! ## Reputation aggregation: `Storage.load_accuracy_stats` and
`GET /performance/reputation` (`src/api/server.py get_reputation`) -/

/-- A `performance_accuracy` row joined to its snapshot (the join filters
on the snapshot's 30-day window; rows here are the ones surviving it). -/
structure AccuracyJoinedRow where
  windowHours : ℕ
  directionCorrect : Bool
  asset : String
deriving DecidableEq, Repr

structure TimeframeStats where
  accuracy : ℚ
  hits : ℕ
  total : ℕ
deriving DecidableEq, Repr

/-- The timeframe label: `"7d"` for the 168-hour window, else `"{w}h"`. -/
def timeframeLabel (wh : ℕ) : String :=
  if wh = 168 then "7d" else toString wh ++ "h"

/-- Distinct values of a list in first-occurrence order, modelling the
`GROUP BY` keys of the aggregation queries. -/
def keysInOrder {α : Type} [DecidableEq α] : List α → List α → List α
  | [], _ => []
  | x :: xs, seen => if x ∈ seen then keysInOrder xs seen
                     else x :: keysInOrder xs (x :: seen)

structure AccuracyStats where
  total : ℕ
  hits : ℕ
  byTimeframe : List (String × TimeframeStats)
  byAsset : List (String × ℚ)
deriving DecidableEq, Repr

/-- `Storage.load_accuracy_stats`: overall count and hit count, per-window
breakdown and per-asset accuracy over the joined rows. -/
def load_accuracy_stats (rows : List AccuracyJoinedRow) : AccuracyStats :=
  let total := rows.length
  let hits := (rows.filter (fun r => r.directionCorrect)).length
  let windows := keysInOrder (rows.map (fun r => r.windowHours)) []
  let byTimeframe := windows.map (fun wh =>
    let wrows := rows.filter (fun r => r.windowHours = wh)
    let wtotal := wrows.length
    let whits := (wrows.filter (fun r => r.directionCorrect)).length
    (timeframeLabel wh,
     { accuracy := if wtotal > 0 then pyRoundTo 1 ((whits : ℚ) / (wtotal : ℚ) * 100) else 0
       hits := whits
       total := wtotal }))
  let assets := keysInOrder (rows.map (fun r => r.asset)) []
  let byAsset := assets.map (fun a =>
    let arows := rows.filter (fun r => r.asset = a)
    let atotal := arows.length
    let ahits := (arows.filter (fun r => r.directionCorrect)).length
    (a, if atotal > 0 then pyRoundTo 1 ((ahits : ℚ) / (atotal : ℚ) * 100) else 0))
  { total := total, hits := hits, byTimeframe := byTimeframe, byAsset := byAsset }

/-- The fields of the `/performance/reputation` response body. -/
structure ReputationResponse where
  status : String
  reputationScore : ℤ
  accuracy30d : ℚ
  signalsEvaluated : ℕ
  signalsCorrect : ℕ
  signalsWrong : ℤ
  byTimeframe : List (String × TimeframeStats)
  byAsset : List (String × ℚ)
  snapshotsCollected30d : ℕ
deriving DecidableEq, Repr

/-- `get_reputation` in `src/api/server.py`: `accuracy_30d` is
`round(hits / total * 100, 1)` and `reputation_score` is
`int(round(accuracy))` — Python's banker's rounding. When no accuracy
rows exist the endpoint returns a "collecting_data" body, represented
with zeroed numeric fields. -/
def get_reputation (stats : AccuracyStats) (totalSnapshots : ℕ) : ReputationResponse :=
  if stats.total = 0 then
    { status := "collecting_data", reputationScore := 0, accuracy30d := 0
      signalsEvaluated := 0, signalsCorrect := 0, signalsWrong := 0
      byTimeframe := [], byAsset := [], snapshotsCollected30d := totalSnapshots }
  else
    let accuracy := if stats.total > 0
      then pyRoundTo 1 ((stats.hits : ℚ) / (stats.total : ℚ) * 100) else 0
    { status := "active"
      reputationScore := pyRound accuracy
      accuracy30d := accuracy
      signalsEvaluated := stats.total
      signalsCorrect := stats.hits
      signalsWrong := (stats.total : ℤ) - (stats.hits : ℤ)
      byTimeframe := stats.byTimeframe
      byAsset := stats.byAsset
      snapshotsCollected30d := totalSnapshots }

/-- The accuracy rows of C8's scenario: 10 rows at window 24 with 7
correct, 4 rows at window 48 with 2 correct, 2 rows at window 168 with 1
correct. -/
def rowsC8 : List AccuracyJoinedRow :=
  List.replicate 7 ⟨24, true, "BTC"⟩ ++ List.replicate 3 ⟨24, false, "BTC"⟩
    ++ List.replicate 2 ⟨48, true, "BTC"⟩ ++ List.replicate 2 ⟨48, false, "BTC"⟩
    ++ List.replicate 1 ⟨168, true, "BTC"⟩ ++ List.replicate 1 ⟨168, false, "BTC"⟩

def respC8 : ReputationResponse := get_reputation (load_accuracy_stats rowsC8) 20

/-- C8 (amended): on the claimed scenario the endpoint reports total 16,
hits 10, `accuracy_30d = 62.5`, the claimed per-timeframe breakdown —
and `reputation_score = 62`, because Python's `round` is half-to-even
(`round(62.5) = 62`), not 63 as claimed. -/
theorem C8_reputation_values :
    respC8.status = "active" ∧
    respC8.signalsEvaluated = 16 ∧ respC8.signalsCorrect = 10 ∧
    respC8.accuracy30d = 62.5 ∧
    respC8.byTimeframe =
      [("24h", { accuracy := 70, hits := 7, total := 10 }),
       ("48h", { accuracy := 50, hits := 2, total := 4 }),
       ("7d", { accuracy := 50, hits := 1, total := 2 })] ∧
    respC8.reputationScore = 62 := by
  with_unfolding_all decide

/-- Counterexample to C8 as stated: the claimed `reputation_score = 63`
is not what the code computes — `int(round(62.5))` is 62 under Python's
banker's rounding. -/
theorem C8_counterexample :
    respC8.accuracy30d = 62.5 ∧ respC8.reputationScore = 62 ∧
    respC8.reputationScore ≠ 63 := by
  with_unfolding_all decide

/-! ## Performance tracking: snapshot and accuracy tables
(`Storage.save_performance_snapshot`, `Storage.save_performance_accuracy`,
`Storage.load_unevaluated_snapshots` in `src/shared/storage.py` and
`_evaluate_old_snapshots` in `src/api/server.py`) -/

/-- The three evaluation windows (24h, 48h, 168h = 7d). -/
inductive Window where
  | w24 | w48 | w168
deriving DecidableEq, Repr, Fintype

def Window.hours : Window → ℕ
  | .w24 => 24
  | .w48 => 48
  | .w168 => 168

/-- A `performance_snapshots` row (timestamps as integer hours). The
`sources_count` and `detail` columns are never read by the evaluation
pass and are omitted. -/
structure PerfSnapshot where
  id : ℕ
  ts : ℤ
  asset : String
  signalScore : ℚ
  signalDirection : String
  priceAtSignal : ℚ
  evaluated24h : Bool := false
  evaluated48h : Bool := false
  evaluated7d : Bool := false
deriving DecidableEq, Repr

/-- The `evaluated_{w}` column for a window (`evaluated_7d` for 168). -/
def PerfSnapshot.flag (s : PerfSnapshot) : Window → Bool
  | .w24 => s.evaluated24h
  | .w48 => s.evaluated48h
  | .w168 => s.evaluated7d

def PerfSnapshot.setFlag (s : PerfSnapshot) : Window → PerfSnapshot
  | .w24 => { s with evaluated24h := true }
  | .w48 => { s with evaluated48h := true }
  | .w168 => { s with evaluated7d := true }

/-- A `performance_accuracy` row. -/
structure PerfAccuracyRow where
  snapshotId : ℕ
  windowHours : ℕ
  priceAtWindow : ℚ
  directionCorrect : Bool
deriving DecidableEq, Repr

/-- The two performance tables plus the autoincrement counter. -/
structure PerfState where
  snapshots : List PerfSnapshot := []
  accuracy : List PerfAccuracyRow := []
  nextId : ℕ := 1
deriving DecidableEq, Repr

/-- `Storage.save_performance_snapshot`: insert a fresh row with all
evaluation flags false; returns the autoincremented id. -/
def save_performance_snapshot (st : PerfState) (ts : ℤ) (asset : String)
    (score : ℚ) (direction : String) (price : ℚ) : PerfState :=
  { st with
    snapshots := st.snapshots ++
      [{ id := st.nextId, ts := ts, asset := asset, signalScore := score
         signalDirection := direction, priceAtSignal := price }]
    nextId := st.nextId + 1 }

/-- `Storage.save_performance_accuracy`: insert the accuracy row and set
the snapshot's matching evaluation flag, in one call (one transaction). -/
def save_performance_accuracy (st : PerfState) (sid : ℕ) (w : Window)
    (priceAtWindow : ℚ) (hit : Bool) : PerfState :=
  { st with
    accuracy := st.accuracy ++
      [{ snapshotId := sid, windowHours := w.hours
         priceAtWindow := priceAtWindow, directionCorrect := hit }]
    snapshots := st.snapshots.map (fun s => if s.id = sid then s.setFlag w else s) }

/-- Insertion into a timestamp-ascending list (the `ORDER BY timestamp
ASC` of `load_unevaluated_snapshots`). -/
def insertByTs (s : PerfSnapshot) : List PerfSnapshot → List PerfSnapshot
  | [] => [s]
  | x :: xs => if s.ts < x.ts then s :: x :: xs else x :: insertByTs s xs

def sortByTs : List PerfSnapshot → List PerfSnapshot
  | [] => []
  | x :: xs => insertByTs x (sortByTs xs)

/-- `Storage.load_unevaluated_snapshots`: rows whose flag for the window
is still false and whose timestamp is at or before the cutoff
(`now − min_age_hours`), oldest first, capped at 100. -/
def load_unevaluated_snapshots (st : PerfState) (w : Window) (cutoff : ℤ) :
    List PerfSnapshot :=
  (sortByTs (st.snapshots.filter
    (fun s => decide (s.flag w = false ∧ s.ts ≤ cutoff)))).take 100

/-- The `direction_correct` computation of `_evaluate_old_snapshots`:
`pct_change > 0` for bullish, `< 0` for bearish, `|pct_change| ≤ 2.0`
otherwise. -/
def evalHit (direction : String) (pct : ℚ) : Bool :=
  if direction = "bullish" then decide (pct > 0)
  else if direction = "bearish" then decide (pct < 0)
  else decide (|pct| ≤ 2)

/-- The per-row loop of `_evaluate_old_snapshots` for one window over an
already-loaded selection. A snapshot without a current price is skipped;
a snapshot with `price_at_signal = 0` raises `ZeroDivisionError`, which
aborts the whole pass (the `true` flag) with the inserts so far kept. -/
def processSnaps (prices : List (String × ℚ)) (w : Window) :
    List PerfSnapshot → PerfState → PerfState × Bool
  | [], st => (st, false)
  | snap :: rest, st =>
    match prices.lookup snap.asset with
    | none => processSnaps prices w rest st
    | some priceNow =>
      if snap.priceAtSignal = 0 then (st, true)
      else
        let pct := (priceNow - snap.priceAtSignal) / snap.priceAtSignal * 100
        let hit := evalHit snap.signalDirection pct
        processSnaps prices w rest
          (save_performance_accuracy st snap.id w priceNow hit)

/-- One window of the evaluation pass: load the selection, then evaluate
each row. -/
def evalWindow (prices : List (String × ℚ)) (w : Window) (cutoff : ℤ)
    (st : PerfState) : PerfState × Bool :=
  processSnaps prices w (load_unevaluated_snapshots st w cutoff) st

/-- `_evaluate_old_snapshots`: nothing happens without current prices
(also covering the missing-market-envelope early return); otherwise the
24h, 48h and 168h windows are evaluated in order, each with
`min_age_hours` equal to the window; an uncaught `ZeroDivisionError`
aborts the remaining rows and windows. -/
def evaluate_old_snapshots (now : ℤ) (prices : List (String × ℚ))
    (st : PerfState) : PerfState :=
  if prices.isEmpty then st
  else
    match evalWindow prices .w24 (now - 24) st with
    | (st1, true) => st1
    | (st1, false) =>
      match evalWindow prices .w48 (now - 48) st1 with
      | (st2, true) => st2
      | (st2, false) => (evalWindow prices .w168 (now - 168) st2).1

/-- The states reachable by the performance subsystem's operations:
the empty store, snapshot creation, and the periodic evaluation pass
(which is what invokes `save_performance_accuracy`). -/
inductive Reachable : PerfState → Prop where
  | init : Reachable {}
  | snapshot (st : PerfState) (ts : ℤ) (asset : String) (score : ℚ)
      (direction : String) (price : ℚ) : Reachable st →
      Reachable (save_performance_snapshot st ts asset score direction price)
  | evalPass (st : PerfState) (now : ℤ) (prices : List (String × ℚ)) :
      Reachable st → Reachable (evaluate_old_snapshots now prices st)

/-- Number of accuracy rows for a `(snapshot_id, window_hours)` pair. -/
def accCount (acc : List PerfAccuracyRow) (sid : ℕ) (wh : ℕ) : ℕ :=
  (acc.filter (fun a => decide (a.snapshotId = sid ∧ a.windowHours = wh))).length

/-- The inductive invariant of the performance store: fresh ids, unique
ids, no dangling accuracy rows, the flag ↔ unique-accuracy-row
equivalence, and at most one accuracy row per pair. -/
def PerfInv (st : PerfState) : Prop :=
  (∀ s ∈ st.snapshots, s.id < st.nextId) ∧
  (st.snapshots.map (fun s => s.id)).Nodup ∧
  (∀ a ∈ st.accuracy, ∃ s ∈ st.snapshots, s.id = a.snapshotId) ∧
  (∀ s ∈ st.snapshots, ∀ w : Window,
    s.flag w = true ↔ accCount st.accuracy s.id w.hours = 1) ∧
  (∀ sid wh, accCount st.accuracy sid wh ≤ 1)

theorem setFlag_id (s : PerfSnapshot) (w : Window) : (s.setFlag w).id = s.id := by
  cases w <;> rfl

theorem flag_setFlag_self (s : PerfSnapshot) (w : Window) :
    (s.setFlag w).flag w = true := by
  cases w <;> rfl

theorem flag_setFlag_other (s : PerfSnapshot) {w w' : Window} (h : w' ≠ w) :
    (s.setFlag w).flag w' = s.flag w' := by
  cases w <;> cases w' <;> first | rfl | exact absurd rfl h

theorem Window.hours_inj {w w' : Window} (h : Window.hours w = Window.hours w') :
    w = w' := by
  cases w <;> cases w' <;> first | rfl | exact absurd h (by decide)

theorem accCount_append (acc : List PerfAccuracyRow) (row : PerfAccuracyRow)
    (sid wh : ℕ) :
    accCount (acc ++ [row]) sid wh = accCount acc sid wh
      + (if row.snapshotId = sid ∧ row.windowHours = wh then 1 else 0) := by
  unfold accCount
  rw [List.filter_append, List.length_append]
  congr 1
  by_cases h : row.snapshotId = sid ∧ row.windowHours = wh
  · rw [if_pos h]
    simp [List.filter, h]
  · rw [if_neg h]
    simp [List.filter, h]

theorem accCount_eq_zero (acc : List PerfAccuracyRow) (sid wh : ℕ)
    (h : ∀ a ∈ acc, ¬ (a.snapshotId = sid ∧ a.windowHours = wh)) :
    accCount acc sid wh = 0 := by
  unfold accCount
  rw [List.length_eq_zero, List.filter_eq_nil_iff]
  intro a ha
  simpa using h a ha

theorem perfInv_init : PerfInv {} := by
  refine ⟨?_, ?_, ?_, ?_, ?_⟩ <;> simp [PerfInv, accCount]

theorem perfInv_snapshot (st : PerfState) (ts : ℤ) (asset : String) (score : ℚ)
    (direction : String) (price : ℚ) (h : PerfInv st) :
    PerfInv (save_performance_snapshot st ts asset score direction price) := by
  obtain ⟨hid, hnodup, hdang, hflag, hone⟩ := h
  refine ⟨?_, ?_, ?_, ?_, hone⟩
  · intro s hs
    rcases List.mem_append.mp hs with hs | hs
    · exact Nat.lt_succ_of_lt (hid s hs)
    · simp only [List.mem_singleton] at hs
      subst hs
      exact Nat.lt_succ_self _
  · show ((st.snapshots ++ _).map fun s => s.id).Nodup
    rw [List.map_append, List.nodup_append]
    refine ⟨hnodup, by simp, ?_⟩
    intro x hx hx2
    obtain ⟨s, hs, rfl⟩ := List.mem_map.mp hx
    simp only [List.map_cons, List.map_nil, List.mem_singleton] at hx2
    have h1 := hid s hs
    omega
  · intro a ha
    obtain ⟨s, hs, hsid⟩ := hdang a ha
    exact ⟨s, List.mem_append_left _ hs, hsid⟩
  · intro s hs w
    rcases List.mem_append.mp hs with hs | hs
    · exact hflag s hs w
    · simp only [List.mem_singleton] at hs
      subst hs
      have hcount : accCount st.accuracy st.nextId w.hours = 0 := by
        apply accCount_eq_zero
        intro a ha hcontra
        obtain ⟨hc1, -⟩ := hcontra
        obtain ⟨s', hs', hsid⟩ := hdang a ha
        have h1 := hid s' hs'
        omega
      constructor
      · intro hfl
        exfalso
        cases w <;> simp [PerfSnapshot.flag] at hfl
      · intro hc
        exfalso
        have hc' : accCount st.accuracy st.nextId w.hours = 1 := hc
        omega

theorem updFlag_id (sid : ℕ) (w : Window) (s : PerfSnapshot) :
    (if s.id = sid then s.setFlag w else s).id = s.id := by
  split
  · exact setFlag_id _ _
  · rfl

theorem perfInv_saveAcc (st : PerfState) (sid : ℕ) (w : Window) (price : ℚ)
    (hit : Bool) (h : PerfInv st)
    (hsel : ∃ s ∈ st.snapshots, s.id = sid ∧ s.flag w = false) :
    PerfInv (save_performance_accuracy st sid w price hit) := by
  obtain ⟨hid, hnodup, hdang, hflag, hone⟩ := h
  obtain ⟨s0, hs0, hs0id, hs0flag⟩ := hsel
  have hzero : accCount st.accuracy sid w.hours = 0 := by
    have hne : accCount st.accuracy sid w.hours ≠ 1 := by
      intro hcnt
      have hcnt' : accCount st.accuracy s0.id w.hours = 1 := by rw [hs0id]; exact hcnt
      have := (hflag s0 hs0 w).mpr hcnt'
      rw [this] at hs0flag
      exact absurd hs0flag (by simp)
    have := hone sid w.hours
    omega
  refine ⟨?_, ?_, ?_, ?_, ?_⟩
  · intro s hs
    obtain ⟨s1, hs1, rfl⟩ := List.mem_map.mp hs
    rw [updFlag_id]
    exact hid s1 hs1
  · show ((st.snapshots.map (fun s => if s.id = sid then s.setFlag w else s)).map
      fun s => s.id).Nodup
    rw [List.map_map]
    have hcomp : st.snapshots.map
        ((fun s => s.id) ∘ (fun s => if s.id = sid then s.setFlag w else s))
        = st.snapshots.map (fun s => s.id) :=
      List.map_congr_left (fun s _ => updFlag_id sid w s)
    rw [hcomp]
    exact hnodup
  · intro a ha
    rcases List.mem_append.mp ha with ha | ha
    · obtain ⟨s', hs', hsid⟩ := hdang a ha
      exact ⟨if s'.id = sid then s'.setFlag w else s',
        List.mem_map_of_mem _ hs', by rw [updFlag_id]; exact hsid⟩
    · simp only [List.mem_singleton] at ha
      subst ha
      exact ⟨if s0.id = sid then s0.setFlag w else s0,
        List.mem_map_of_mem _ hs0, by rw [updFlag_id]; exact hs0id⟩
  · intro s hs w'
    obtain ⟨s1, hs1, rfl⟩ := List.mem_map.mp hs
    have hcnt := accCount_append st.accuracy
      { snapshotId := sid, windowHours := w.hours
        priceAtWindow := price, directionCorrect := hit }
      (if s1.id = sid then s1.setFlag w else s1).id w'.hours
    rw [updFlag_id] at hcnt
    show _ ↔ accCount (st.accuracy ++ _) (if s1.id = sid then s1.setFlag w else s1).id
      w'.hours = 1
    rw [show accCount (st.accuracy ++ _) (if s1.id = sid then s1.setFlag w else s1).id
      w'.hours = accCount (st.accuracy ++
        [{ snapshotId := sid, windowHours := w.hours
           priceAtWindow := price, directionCorrect := hit }]) s1.id w'.hours by
      rw [updFlag_id]]
    rw [hcnt]
    by_cases h1 : s1.id = sid
    · rw [if_pos h1]
      by_cases h2 : w' = w
      · subst h2
        rw [flag_setFlag_self]
        rw [if_pos ⟨h1.symm, rfl⟩]
        rw [← h1] at hzero
        rw [hzero]
        simp
      · rw [flag_setFlag_other _ h2]
        rw [if_neg (by
          rintro ⟨-, hwh⟩
          exact h2 (Window.hours_inj hwh).symm)]
        simpa using hflag s1 hs1 w'
    · rw [if_neg h1]
      rw [if_neg (by rintro ⟨hsid, -⟩; exact h1 hsid.symm)]
      simpa using hflag s1 hs1 w'
  · intro sid' wh'
    show accCount (st.accuracy ++
      [{ snapshotId := sid, windowHours := w.hours
         priceAtWindow := price, directionCorrect := hit }]) sid' wh' ≤ 1
    rw [accCount_append]
    by_cases hrow : sid = sid' ∧ w.hours = wh'
    · rw [if_pos hrow]
      obtain ⟨h1, h2⟩ := hrow
      subst h1
      subst h2
      rw [hzero]
    · rw [if_neg hrow]
      have := hone sid' wh'
      omega

theorem insertByTs_perm (s : PerfSnapshot) (l : List PerfSnapshot) :
    (insertByTs s l).Perm (s :: l) := by
  induction l with
  | nil => exact List.Perm.refl _
  | cons x xs ih =>
    unfold insertByTs
    split
    · exact List.Perm.refl _
    · exact (List.Perm.cons x ih).trans (List.Perm.swap s x xs)

theorem sortByTs_perm (l : List PerfSnapshot) : (sortByTs l).Perm l := by
  induction l with
  | nil => exact List.Perm.refl _
  | cons x xs ih =>
    exact (insertByTs_perm x (sortByTs xs)).trans (List.Perm.cons x ih)

theorem load_uneval_mem {st : PerfState} {w : Window} {cutoff : ℤ} {s : PerfSnapshot}
    (h : s ∈ load_unevaluated_snapshots st w cutoff) :
    s ∈ st.snapshots ∧ s.flag w = false ∧ s.ts ≤ cutoff := by
  unfold load_unevaluated_snapshots at h
  have h1 : s ∈ sortByTs (st.snapshots.filter
      (fun s => decide (s.flag w = false ∧ s.ts ≤ cutoff))) := List.take_subset _ _ h
  have h2 : s ∈ st.snapshots.filter
      (fun s => decide (s.flag w = false ∧ s.ts ≤ cutoff)) :=
    (sortByTs_perm _).mem_iff.mp h1
  have h3 := List.mem_filter.mp h2
  refine ⟨h3.1, ?_, ?_⟩
  · exact (of_decide_eq_true h3.2).1
  · exact (of_decide_eq_true h3.2).2

theorem load_uneval_nodup (st : PerfState) (w : Window) (cutoff : ℤ)
    (hnodup : (st.snapshots.map (fun s => s.id)).Nodup) :
    ((load_unevaluated_snapshots st w cutoff).map (fun s => s.id)).Nodup := by
  unfold load_unevaluated_snapshots
  have hfil : ((st.snapshots.filter
      (fun s => decide (s.flag w = false ∧ s.ts ≤ cutoff))).map (fun s => s.id)).Nodup :=
    hnodup.sublist (List.Sublist.map _ (List.filter_sublist _))
  have hsort : ((sortByTs (st.snapshots.filter
      (fun s => decide (s.flag w = false ∧ s.ts ≤ cutoff)))).map (fun s => s.id)).Nodup :=
    (((sortByTs_perm _).map _).nodup_iff).mpr hfil
  rw [List.map_take]
  exact hsort.sublist (List.take_sublist _ _)

theorem processSnaps_inv (prices : List (String × ℚ)) (w : Window) :
    ∀ (rows : List PerfSnapshot) (st : PerfState), PerfInv st →
      (∀ r ∈ rows, ∃ s ∈ st.snapshots, s.id = r.id ∧ s.flag w = false) →
      (rows.map (fun r => r.id)).Nodup →
      PerfInv (processSnaps prices w rows st).1 := by
  intro rows
  induction rows with
  | nil => exact fun st hinv _ _ => hinv
  | cons r rest ih =>
    intro st hinv hpre hnodup
    have hnodup2 : (r.id :: rest.map (fun r => r.id)).Nodup := by simpa using hnodup
    have hnodup' := List.nodup_cons.mp hnodup2
    cases hl : prices.lookup r.asset with
    | none =>
      simp only [processSnaps, hl]
      exact ih st hinv (fun r' hr' => hpre r' (List.mem_cons_of_mem _ hr')) hnodup'.2
    | some priceNow =>
      by_cases hz : r.priceAtSignal = 0
      · simp only [processSnaps, hl, if_pos hz]
        exact hinv
      · simp only [processSnaps, hl, if_neg hz]
        have hsel := hpre r (List.mem_cons_self _ _)
        have hinv' := perfInv_saveAcc st r.id w priceNow
          (evalHit r.signalDirection ((priceNow - r.priceAtSignal) / r.priceAtSignal * 100))
          hinv hsel
        apply ih _ hinv'
        · intro r' hr'
          obtain ⟨s, hs, hsid, hsflag⟩ := hpre r' (List.mem_cons_of_mem _ hr')
          have hne : s.id ≠ r.id := by
            rw [hsid]
            intro hcontra
            exact hnodup'.1 (by
              rw [← hcontra]
              exact List.mem_map_of_mem _ hr')
          refine ⟨if s.id = r.id then s.setFlag w else s, ?_, ?_⟩
          · exact List.mem_map_of_mem _ hs
          · rw [if_neg hne]
            exact ⟨hsid, hsflag⟩
        · exact hnodup'.2

theorem evalWindow_inv (prices : List (String × ℚ)) (w : Window) (cutoff : ℤ)
    (st : PerfState) (hinv : PerfInv st) : PerfInv (evalWindow prices w cutoff st).1 := by
  apply processSnaps_inv prices w _ st hinv
  · intro r hr
    obtain ⟨hmem, hflag, -⟩ := load_uneval_mem hr
    exact ⟨r, hmem, rfl, hflag⟩
  · exact load_uneval_nodup st w cutoff hinv.2.1

theorem evaluate_old_snapshots_inv (now : ℤ) (prices : List (String × ℚ))
    (st : PerfState) (hinv : PerfInv st) :
    PerfInv (evaluate_old_snapshots now prices st) := by
  unfold evaluate_old_snapshots
  split
  · exact hinv
  · split
    · rename_i st1 heq1
      have h1 := evalWindow_inv prices .w24 (now - 24) st hinv
      rw [heq1] at h1
      exact h1
    · rename_i st1 heq1
      have h1 := evalWindow_inv prices .w24 (now - 24) st hinv
      rw [heq1] at h1
      split
      · rename_i st2 heq2
        have h2 := evalWindow_inv prices .w48 (now - 48) st1 h1
        rw [heq2] at h2
        exact h2
      · rename_i st2 heq2
        have h2 := evalWindow_inv prices .w48 (now - 48) st1 h1
        rw [heq2] at h2
        exact evalWindow_inv prices .w168 (now - 168) st2 h2

theorem reachable_inv {st : PerfState} (h : Reachable st) : PerfInv st := by
  induction h with
  | init => exact perfInv_init
  | snapshot st ts asset score direction price _ ih =>
    exact perfInv_snapshot st ts asset score direction price ih
  | evalPass st now prices _ ih => exact evaluate_old_snapshots_inv now prices st ih

/-- C5: in every state reachable by the performance subsystem's
operations, a snapshot's `evaluated_{w}` flag is true iff exactly one
accuracy row exists for `(snapshot_id, window)` — and at most one
accuracy row ever exists per pair. -/
theorem C5_evaluation_flag_consistency (st : PerfState) (h : Reachable st) :
    (∀ s ∈ st.snapshots, ∀ w : Window,
      s.flag w = true ↔ accCount st.accuracy s.id w.hours = 1) ∧
    (∀ sid wh, accCount st.accuracy sid wh ≤ 1) := by
  have hinv := reachable_inv h
  exact ⟨hinv.2.2.2.1, hinv.2.2.2.2⟩

/-- The state of C5's witness: one snapshot taken at hour 0, then an
evaluation pass at hour 1000 with a live price. -/
def stWitC5 : PerfState :=
  evaluate_old_snapshots 1000 [("BTC", 110)]
    (save_performance_snapshot {} 0 "BTC" 65 "bullish" 100)

/-- Witness for C5 on a concrete snapshot-then-evaluate trace. -/
theorem C5_evaluation_flag_consistency_witness :
    Reachable stWitC5 ∧
    ((∀ s ∈ stWitC5.snapshots, ∀ w : Window,
        s.flag w = true ↔ accCount stWitC5.accuracy s.id w.hours = 1) ∧
      (∀ sid wh, accCount stWitC5.accuracy sid wh ≤ 1)) :=
  have hr : Reachable stWitC5 :=
    Reachable.evalPass _ 1000 [("BTC", 110)]
      (Reachable.snapshot _ 0 "BTC" 65 "bullish" 100 Reachable.init)
  ⟨hr, C5_evaluation_flag_consistency stWitC5 hr⟩

theorem processSnaps_acc_mono (prices : List (String × ℚ)) (w : Window) :
    ∀ (rows : List PerfSnapshot) (st : PerfState) (a : PerfAccuracyRow),
      a ∈ st.accuracy → a ∈ (processSnaps prices w rows st).1.accuracy := by
  intro rows
  induction rows with
  | nil => exact fun st a ha => ha
  | cons r rest ih =>
    intro st a ha
    cases hl : prices.lookup r.asset with
    | none =>
      simp only [processSnaps, hl]
      exact ih st a ha
    | some priceNow =>
      by_cases hz : r.priceAtSignal = 0
      · simp only [processSnaps, hl, if_pos hz]
        exact ha
      · simp only [processSnaps, hl, if_neg hz]
        exact ih _ a (List.mem_append_left _ ha)

theorem processSnaps_persists (prices : List (String × ℚ)) (w : Window) :
    ∀ (rows : List PerfSnapshot) (st : PerfState) (snap : PerfSnapshot) (p : ℚ),
      (∀ r ∈ rows, (prices.lookup r.asset).isSome → r.priceAtSignal ≠ 0) →
      snap ∈ rows → prices.lookup snap.asset = some p → snap.priceAtSignal ≠ 0 →
      ({ snapshotId := snap.id, windowHours := w.hours, priceAtWindow := p
         directionCorrect := evalHit snap.signalDirection
           ((p - snap.priceAtSignal) / snap.priceAtSignal * 100) } : PerfAccuracyRow)
        ∈ (processSnaps prices w rows st).1.accuracy := by
  intro rows
  induction rows with
  | nil =>
    intro st snap p _ hmem
    exact absurd hmem (List.not_mem_nil _)
  | cons r rest ih =>
    intro st snap p hno hmem hp hps
    rcases List.mem_cons.mp hmem with heq | hmem'
    · subst heq
      simp only [processSnaps, hp, if_neg hps]
      apply processSnaps_acc_mono
      exact List.mem_append_right _ (List.mem_singleton_self _)
    · cases hl : prices.lookup r.asset with
      | none =>
        simp only [processSnaps, hl]
        exact ih st snap p (fun r' hr' => hno r' (List.mem_cons_of_mem _ hr'))
          hmem' hp hps
      | some pn =>
        have hz : r.priceAtSignal ≠ 0 :=
          hno r (List.mem_cons_self _ _) (by rw [hl]; rfl)
        simp only [processSnaps, hl, if_neg hz]
        exact ih _ snap p (fun r' hr' => hno r' (List.mem_cons_of_mem _ hr'))
          hmem' hp hps

/-- C6 (amended): in a window's evaluation pass, every selected
unevaluated snapshot with a current price and a non-zero
`price_at_signal` gets an accuracy row with
`pct_change = (price_now − price_at_signal) / price_at_signal · 100` and
`direction_correct = (pct_change > 0)` for bullish, `(pct_change < 0)`
for bearish, `(|pct_change| ≤ 2.0)` otherwise — provided no selected
snapshot with a current price has `price_at_signal = 0` (such a row
raises `ZeroDivisionError` and aborts the pass: `C6_counterexample`).
`evaluate_old_snapshots` runs this for each window in {24, 48, 168}. -/
theorem C6_evaluation_direction (prices : List (String × ℚ)) (w : Window)
    (cutoff : ℤ) (st : PerfState) (snap : PerfSnapshot) (p : ℚ)
    (hnoabort : ∀ r ∈ load_unevaluated_snapshots st w cutoff,
      (prices.lookup r.asset).isSome → r.priceAtSignal ≠ 0)
    (hmem : snap ∈ load_unevaluated_snapshots st w cutoff)
    (hp : prices.lookup snap.asset = some p)
    (hps : snap.priceAtSignal ≠ 0) :
    ({ snapshotId := snap.id, windowHours := w.hours, priceAtWindow := p
       directionCorrect :=
         if snap.signalDirection = "bullish" then
           decide ((p - snap.priceAtSignal) / snap.priceAtSignal * 100 > 0)
         else if snap.signalDirection = "bearish" then
           decide ((p - snap.priceAtSignal) / snap.priceAtSignal * 100 < 0)
         else decide (|(p - snap.priceAtSignal) / snap.priceAtSignal * 100| ≤ 2) }
      : PerfAccuracyRow) ∈ (evalWindow prices w cutoff st).1.accuracy := by
  have h := processSnaps_persists prices w (load_unevaluated_snapshots st w cutoff)
    st snap p hnoabort hmem hp hps
  simpa only [evalHit] using h

/-- The snapshot of C6's witness: 976 hours old, bullish at price 100. -/
def snapWitC6 : PerfSnapshot :=
  { id := 1, ts := 0, asset := "BTC", signalScore := 70
    signalDirection := "bullish", priceAtSignal := 100 }

def stWitC6 : PerfState := { snapshots := [snapWitC6], accuracy := [], nextId := 2 }

/-- Witness for C6: the bullish snapshot at price 100 evaluated against
price 110 gets a correct-direction accuracy row for the 24h window. -/
theorem C6_evaluation_direction_witness :
    snapWitC6 ∈ load_unevaluated_snapshots stWitC6 .w24 976 ∧
    ({ snapshotId := 1, windowHours := 24, priceAtWindow := 110
       directionCorrect := true } : PerfAccuracyRow)
      ∈ (evalWindow [("BTC", 110)] .w24 976 stWitC6).1.accuracy := by
  refine ⟨by with_unfolding_all decide, ?_⟩
  have h := C6_evaluation_direction [("BTC", 110)] .w24 976 stWitC6 snapWitC6 110
    (by with_unfolding_all decide) (by with_unfolding_all decide)
    (by with_unfolding_all decide) (by with_unfolding_all decide)
  revert h
  with_unfolding_all decide

/-- The two snapshots of C6's counterexample: the older one has
`price_at_signal = 0`. -/
def snapCxA : PerfSnapshot :=
  { id := 1, ts := 0, asset := "BTC", signalScore := 70
    signalDirection := "bullish", priceAtSignal := 0 }

def snapCxB : PerfSnapshot :=
  { id := 2, ts := 1, asset := "BTC", signalScore := 70
    signalDirection := "bullish", priceAtSignal := 100 }

def stCxC6 : PerfState := { snapshots := [snapCxA, snapCxB], accuracy := [], nextId := 3 }

/-- Counterexample to C6 as stated: snapshot B is selected, has a current
price and a non-zero `price_at_signal`, yet the pass persists nothing for
it — the earlier selected snapshot A has `price_at_signal = 0`, its
`pct_change` division raises `ZeroDivisionError`, and the whole
evaluation pass aborts before reaching B. -/
theorem C6_counterexample :
    snapCxB ∈ load_unevaluated_snapshots stCxC6 .w24 (1000 - 24) ∧
    ([("BTC", (110:ℚ))].lookup snapCxB.asset) = some 110 ∧
    snapCxB.priceAtSignal ≠ 0 ∧
    (evaluate_old_snapshots 1000 [("BTC", 110)] stCxC6).accuracy = [] := by
  refine ⟨?_, ?_, ?_, ?_⟩ <;> with_unfolding_all decide

/-! ## Storage read failure semantics (`src/shared/storage.py`)

Each public read is modelled as `Except String _`, where `.error` means
an exception escapes to the caller. The source wraps the Postgres path
of every read and the SQLite path of `load_kv`, `load_kv_json`,
`load_unevaluated_snapshots` and `load_accuracy_stats` in
`try/except`; the SQLite paths of `load_latest`, `load_recent`,
`load_history` and `count_rows` only pre-check table existence (which
itself opens a connection). A stored blob is `Option String` — `none`
models JSON that `json.loads` rejects. Reads take the already-sanitized
table name (the `_table_name` regex mangling is elided). -/

structure AgentRow where
  ts : ℤ
  blob : Option String
deriving DecidableEq, Repr

structure KvRow where
  key : String
  value : ℚ
deriving DecidableEq, Repr

structure KvjRow where
  key : String
  blob : Option String
deriving DecidableEq, Repr

/-- The backend-visible database state: a connection that may fail, the
per-agent append streams, the kv / kv-json tables, and the two
performance tables (`none` = table not yet created). -/
structure StoreDB where
  connOk : Bool := true
  agentTables : List (String × List AgentRow) := []
  kvTables : List (String × List KvRow) := []
  kvjTables : List (String × List KvjRow) := []
  perfSnapshots : Option (List PerfSnapshot) := none
  perfAccuracy : Option (List PerfAccuracyRow) := none
deriving DecidableEq, Repr

/-- `Storage._sqlite_table_exists`: opens its own connection, so a
connection failure raises out of it. -/
def sqlite_table_exists (db : StoreDB) (t : String) : Except String Bool :=
  if db.connOk then .ok ((db.agentTables.lookup t).isSome)
  else .error "unable to open database file"

/-- `ORDER BY timestamp DESC, id DESC LIMIT 1` over an append stream
(rows listed in insertion = id order, later rows win timestamp ties). -/
def selectLatest (rows : List AgentRow) : Option AgentRow :=
  rows.foldl (fun acc r =>
    match acc with
    | none => some r
    | some a => if a.ts ≤ r.ts then some r else some a) none

/-- `ORDER BY timestamp DESC, id DESC` (newest first). -/
def insertByTsDesc (r : AgentRow) : List AgentRow → List AgentRow
  | [] => [r]
  | x :: xs => if r.ts > x.ts then r :: x :: xs else x :: insertByTsDesc r xs

def sortByTsDesc : List AgentRow → List AgentRow
  | [] => []
  | x :: xs => insertByTsDesc x (sortByTsDesc xs)

/-- `json.loads` over each selected blob, raising on the first malformed
one. -/
def parseBlobs : List AgentRow → Except String (List String)
  | [] => .ok []
  | r :: rs =>
    match r.blob with
    | none => .error "json decode error"
    | some s =>
      match parseBlobs rs with
      | .ok l => .ok (s :: l)
      | .error e => .error e

/-- `Storage.load_latest`, SQLite path: table-existence pre-check, then
the query and an *unguarded* `json.loads`. -/
def load_latest_sqlite (db : StoreDB) (t : String) : Except String (Option String) :=
  match sqlite_table_exists db t with
  | .error e => .error e
  | .ok false => .ok none
  | .ok true =>
    match db.agentTables.lookup t with
    | none => .ok none
    | some rows =>
      match selectLatest rows with
      | none => .ok none
      | some r =>
        match r.blob with
        | none => .error "json decode error"
        | some s => .ok (some s)

/-- `Storage.load_latest`, Postgres path: the whole body sits in
`try/except: return None`. -/
def load_latest_pg (db : StoreDB) (t : String) : Except String (Option String) :=
  match (if ¬ db.connOk then .error "connection failed"
         else match db.agentTables.lookup t with
              | none => .error "relation does not exist"
              | some rows =>
                match selectLatest rows with
                | none => .ok none
                | some r =>
                  match r.blob with
                  | none => .error "json decode error"
                  | some s => .ok (some s) : Except String (Option String)) with
  | .ok v => .ok v
  | .error _ => .ok none

/-- `Storage.load_recent`, SQLite path (unguarded parse loop). -/
def load_recent_sqlite (db : StoreDB) (t : String) (since : ℤ) :
    Except String (List String) :=
  match sqlite_table_exists db t with
  | .error e => .error e
  | .ok false => .ok []
  | .ok true =>
    match db.agentTables.lookup t with
    | none => .ok []
    | some rows =>
      parseBlobs (sortByTsDesc (rows.filter (fun r => decide (r.ts ≥ since))))

/-- `Storage.load_recent`, Postgres path (fully guarded). -/
def load_recent_pg (db : StoreDB) (t : String) (since : ℤ) :
    Except String (List String) :=
  match (if ¬ db.connOk then .error "connection failed"
         else match db.agentTables.lookup t with
              | none => .error "relation does not exist"
              | some rows =>
                parseBlobs (sortByTsDesc (rows.filter (fun r => decide (r.ts ≥ since))))
         : Except String (List String)) with
  | .ok v => .ok v
  | .error _ => .ok []

/-- `Storage.load_history`, SQLite path: page of `(timestamp, data)`
pairs, unguarded. -/
def load_history_sqlite (db : StoreDB) (t : String) (limit offset : ℕ) :
    Except String (List String) :=
  match sqlite_table_exists db t with
  | .error e => .error e
  | .ok false => .ok []
  | .ok true =>
    match db.agentTables.lookup t with
    | none => .ok []
    | some rows => parseBlobs (((sortByTsDesc rows).drop offset).take limit)

/-- `Storage.load_history`, Postgres path (fully guarded). -/
def load_history_pg (db : StoreDB) (t : String) (limit offset : ℕ) :
    Except String (List String) :=
  match (if ¬ db.connOk then .error "connection failed"
         else match db.agentTables.lookup t with
              | none => .error "relation does not exist"
              | some rows => parseBlobs (((sortByTsDesc rows).drop offset).take limit)
         : Except String (List String)) with
  | .ok v => .ok v
  | .error _ => .ok []

/-- `Storage.count_rows`, SQLite path (table pre-check only). -/
def count_rows_sqlite (db : StoreDB) (t : String) : Except String ℕ :=
  match sqlite_table_exists db t with
  | .error e => .error e
  | .ok false => .ok 0
  | .ok true =>
    match db.agentTables.lookup t with
    | none => .ok 0
    | some rows => .ok rows.length

/-- `Storage.count_rows`, Postgres path (fully guarded). -/
def count_rows_pg (db : StoreDB) (t : String) : Except String ℕ :=
  match (if ¬ db.connOk then .error "connection failed"
         else match db.agentTables.lookup t with
              | none => .error "relation does not exist"
              | some rows => .ok rows.length : Except String ℕ) with
  | .ok v => .ok v
  | .error _ => .ok 0

/-- The raw kv lookup (`SELECT value ... ORDER BY id DESC LIMIT 1`):
raises on a failed connection or a missing table. -/
def load_kv_raw (db : StoreDB) (t key : String) : Except String (Option ℚ) :=
  if ¬ db.connOk then .error "connection failed"
  else match db.kvTables.lookup t with
       | none => .error "no such table"
       | some rows => .ok (((rows.filter (fun r => r.key == key)).getLast?).map (·.value))

/-- `Storage.load_kv`: both backends wrap the lookup in
`try/except: return None`. -/
def load_kv_caught (db : StoreDB) (t key : String) : Except String (Option ℚ) :=
  match load_kv_raw db t key with
  | .ok v => .ok v
  | .error _ => .ok none

/-- The raw kv-json lookup, raising also on a malformed stored blob. -/
def load_kv_json_raw (db : StoreDB) (t key : String) : Except String (Option String) :=
  if ¬ db.connOk then .error "connection failed"
  else match db.kvjTables.lookup t with
       | none => .error "no such table"
       | some rows =>
         match (rows.filter (fun r => r.key == key)).getLast? with
         | none => .ok none
         | some r =>
           match r.blob with
           | none => .error "json decode error"
           | some s => .ok (some s)

/-- `Storage.load_kv_json`: wrapped on both backends. -/
def load_kv_json_caught (db : StoreDB) (t key : String) : Except String (Option String) :=
  match load_kv_json_raw db t key with
  | .ok v => .ok v
  | .error _ => .ok none

/-- The raw unevaluated-snapshot query (raises on connection failure or
a missing table). -/
def load_unevaluated_raw (db : StoreDB) (w : Window) (cutoff : ℤ) :
    Except String (List PerfSnapshot) :=
  if ¬ db.connOk then .error "connection failed"
  else match db.perfSnapshots with
       | none => .error "no such table"
       | some l =>
         .ok ((sortByTs (l.filter
           (fun s => decide (s.flag w = false ∧ s.ts ≤ cutoff)))).take 100)

/-- `Storage.load_unevaluated_snapshots`: wrapped on both backends,
returning `[]` on failure. -/
def load_unevaluated_caught (db : StoreDB) (w : Window) (cutoff : ℤ) :
    Except String (List PerfSnapshot) :=
  match load_unevaluated_raw db w cutoff with
  | .ok v => .ok v
  | .error _ => .ok []

/-- The accuracy-to-snapshot join of `load_accuracy_stats`
(`JOIN ... ON a.snapshot_id = s.id WHERE s.timestamp >= since`; ids are
unique by `C5_evaluation_flag_consistency`'s invariant, so `find?`
returns the join partner). -/
def joinRows (acc : List PerfAccuracyRow) (snaps : List PerfSnapshot) (since : ℤ) :
    List AccuracyJoinedRow :=
  acc.filterMap (fun a =>
    match snaps.find? (fun s => decide (s.id = a.snapshotId ∧ s.ts ≥ since)) with
    | some s => some { windowHours := a.windowHours
                       directionCorrect := a.directionCorrect, asset := s.asset }
    | none => none)

/-- The raw aggregation queries of `load_accuracy_stats`. -/
def load_accuracy_stats_raw (db : StoreDB) (since : ℤ) : Except String AccuracyStats :=
  if ¬ db.connOk then .error "connection failed"
  else match db.perfAccuracy, db.perfSnapshots with
       | some acc, some snaps => .ok (load_accuracy_stats (joinRows acc snaps since))
       | _, _ => .error "no such table"

/-- `Storage.load_accuracy_stats`: wrapped on both backends; on failure
the pre-initialized empty result dict is returned. -/
def load_accuracy_stats_caught (db : StoreDB) (since : ℤ) : Except String AccuracyStats :=
  match load_accuracy_stats_raw db since with
  | .ok v => .ok v
  | .error _ => .ok { total := 0, hits := 0, byTimeframe := [], byAsset := [] }

/-- C9 (amended): every Postgres-path read, and the SQLite paths of
`load_kv`, `load_kv_json`, `load_unevaluated_snapshots` and
`load_accuracy_stats`, return null/empty/0 instead of raising, for every
backend state; the SQLite paths of `load_latest`, `load_recent`,
`load_history` and `count_rows` handle only the missing-table case
(returning null/empty/0 when the connection is healthy) — a failed
connection or a malformed stored blob propagates an exception there
(`C9_counterexample`). -/
theorem C9_read_failure_semantics :
    (∀ (db : StoreDB) (t : String), ∃ v, load_latest_pg db t = .ok v) ∧
    (∀ (db : StoreDB) (t : String) (since : ℤ), ∃ v, load_recent_pg db t since = .ok v) ∧
    (∀ (db : StoreDB) (t : String) (limit offset : ℕ),
      ∃ v, load_history_pg db t limit offset = .ok v) ∧
    (∀ (db : StoreDB) (t : String), ∃ v, count_rows_pg db t = .ok v) ∧
    (∀ (db : StoreDB) (t key : String), ∃ v, load_kv_caught db t key = .ok v) ∧
    (∀ (db : StoreDB) (t key : String), ∃ v, load_kv_json_caught db t key = .ok v) ∧
    (∀ (db : StoreDB) (w : Window) (cutoff : ℤ),
      ∃ v, load_unevaluated_caught db w cutoff = .ok v) ∧
    (∀ (db : StoreDB) (since : ℤ), ∃ v, load_accuracy_stats_caught db since = .ok v) ∧
    (∀ (db : StoreDB) (t : String), db.connOk = true → db.agentTables.lookup t = none →
      load_latest_sqlite db t = .ok none ∧
      (∀ since, load_recent_sqlite db t since = .ok []) ∧
      (∀ limit offset, load_history_sqlite db t limit offset = .ok []) ∧
      count_rows_sqlite db t = .ok 0) := by
  refine ⟨?_, ?_, ?_, ?_, ?_, ?_, ?_, ?_, ?_⟩
  · intro db t
    unfold load_latest_pg
    split
    · rename_i v h
      exact ⟨v, rfl⟩
    · exact ⟨none, rfl⟩
  · intro db t since
    unfold load_recent_pg
    split
    · rename_i v h
      exact ⟨v, rfl⟩
    · exact ⟨[], rfl⟩
  · intro db t limit offset
    unfold load_history_pg
    split
    · rename_i v h
      exact ⟨v, rfl⟩
    · exact ⟨[], rfl⟩
  · intro db t
    unfold count_rows_pg
    split
    · rename_i v h
      exact ⟨v, rfl⟩
    · exact ⟨0, rfl⟩
  · intro db t key
    unfold load_kv_caught
    split
    · rename_i v h
      exact ⟨v, rfl⟩
    · exact ⟨none, rfl⟩
  · intro db t key
    unfold load_kv_json_caught
    split
    · rename_i v h
      exact ⟨v, rfl⟩
    · exact ⟨none, rfl⟩
  · intro db w cutoff
    unfold load_unevaluated_caught
    split
    · rename_i v h
      exact ⟨v, rfl⟩
    · exact ⟨[], rfl⟩
  · intro db since
    unfold load_accuracy_stats_caught
    split
    · rename_i v h
      exact ⟨v, rfl⟩
    · exact ⟨{ total := 0, hits := 0, byTimeframe := [], byAsset := [] }, rfl⟩
  · intro db t hconn htab
    have hex : sqlite_table_exists db t = .ok false := by
      unfold sqlite_table_exists
      rw [if_pos (by rw [hconn])]
      rw [htab]
      rfl
    refine ⟨?_, ?_, ?_, ?_⟩
    · unfold load_latest_sqlite
      rw [hex]
    · intro since
      unfold load_recent_sqlite
      rw [hex]
    · intro limit offset
      unfold load_history_sqlite
      rw [hex]
    · unfold count_rows_sqlite
      rw [hex]

/-- Witness for C9's missing-table clause at a concrete SQLite state. -/
theorem C9_read_failure_semantics_witness :
    (({ connOk := true } : StoreDB).agentTables.lookup "agent_market_agent" = none) ∧
    load_latest_sqlite { connOk := true } "agent_market_agent" = .ok none := by
  refine ⟨rfl, ?_⟩
  exact (C9_read_failure_semantics.2.2.2.2.2.2.2.2 { connOk := true }
    "agent_market_agent" rfl rfl).1

/-- The database of C9's counterexample: a healthy connection, an agent
stream whose newest row holds a malformed JSON blob. -/
def dbCxC9 : StoreDB :=
  { connOk := true
    agentTables := [("agent_market_agent", [{ ts := 0, blob := none }])] }

/-- Counterexample to C9 as stated: on the SQLite backend,
`load_latest` over a table whose stored blob is malformed raises
(`json.loads` sits outside any `try` on that path, storage.py lines
130-136), instead of returning null; a failed connection likewise
raises out of `count_rows`. -/
theorem C9_counterexample :
    load_latest_sqlite dbCxC9 "agent_market_agent" = .error "json decode error" ∧
    count_rows_sqlite { connOk := false } "agent_market_agent"
      = .error "unable to open database file" := by
  refine ⟨?_, ?_⟩ <;> with_unfolding_all rfl

end Web3Signals
